import Mathlib

/-!
# Verification of the Personal-DJ splice/render core

Shallow embedding of the analysis, planning and rendering functions of the
Personal-DJ repository, together with theorems settling the specification
claims about them.  JavaScript `number`s are modelled as exact rationals (ℚ)
where the source only uses field operations and comparisons, and as reals (ℝ)
where the source uses `Math.sqrt` / `Math.cos` / `Math.sin` / `Math.pow`.
-/

namespace PersonalDJ

/-- Blend kinds of `src/lib/mix/blends.ts` (`unnamed/part_013`):
`"equalPower" | "sCurve" | "log" | "cut" | "ducked"`. -/
inductive Blend where
  | equalPower | sCurve | log | cut | ducked
  deriving DecidableEq

namespace Blends

/-- Track-A gain sample `a[i]` of `makeCurve(kind, n)` (`unnamed/part_013`,
lines 7–41).  The source fills two `Float32Array`s in one loop over
`x = i / (n - 1)`; we split the pair into the two component functions. -/
noncomputable def makeCurveA (kind : Blend) (n i : ℕ) : ℝ :=
  let x : ℝ := (i : ℝ) / ((n : ℝ) - 1)
  match kind with
  | .equalPower => Real.cos (Real.pi / 2 * x)
  | .sCurve => 1 - x * x * (3 - 2 * x)
  | .log => (1 - x) ^ ((1 : ℝ) / Real.logb 2 7)
  | .ducked =>
      max 0 (Real.cos (Real.pi / 2 * x) *
        (1 - 0.35 * (1 - Real.exp (-(((x - 0.35) / 0.18) ^ 2)))))
  | .cut => if x < 1 then 1 else 0

/-- Track-B gain sample `b[i]` of `makeCurve(kind, n)` (`unnamed/part_013`). -/
noncomputable def makeCurveB (kind : Blend) (n i : ℕ) : ℝ :=
  let x : ℝ := (i : ℝ) / ((n : ℝ) - 1)
  match kind with
  | .equalPower => Real.sin (Real.pi / 2 * x)
  | .sCurve => x * x * (3 - 2 * x)
  | .log => x ^ ((1 : ℝ) / Real.logb 2 7)
  | .ducked => Real.sin (Real.pi / 2 * x)
  | .cut => if 0 < x then 1 else 0

end Blends

namespace BlendEnvelopes

/-- Gain of track A set at step `i` of the `"overlap"` case of
`applyBlendEnvelope` (`src/lib/mix/blendEnvelopes.ts`, lines 18–27):
`gainA = Math.cos(theta) ** 2` with `theta = (i / steps) * (Math.PI / 2)`. -/
noncomputable def overlapGainA (steps i : ℕ) : ℝ :=
  Real.cos ((i : ℝ) / (steps : ℝ) * (Real.pi / 2)) ^ 2

/-- Gain of track B set at step `i` of the `"overlap"` case of
`applyBlendEnvelope`: `gainB = Math.sin(theta) ** 2`. -/
noncomputable def overlapGainB (steps i : ℕ) : ℝ :=
  Real.sin ((i : ℝ) / (steps : ℝ) * (Real.pi / 2)) ^ 2

end BlendEnvelopes

namespace XfadePreview

/-- Crossfade curve sample `aCurve[i]` of `renderTwoBarPreview`
(`src/lib/audio/xfadePreview.ts`, lines 114–121): `Math.cos((x * Math.PI) / 2)`
with `x = i / (N - 1)`. -/
noncomputable def aCurve (N i : ℕ) : ℝ :=
  Real.cos ((i : ℝ) / ((N : ℝ) - 1) * Real.pi / 2)

/-- Crossfade curve sample `bCurve[i]` of `renderTwoBarPreview`:
`Math.sin((x * Math.PI) / 2)`. -/
noncomputable def bCurve (N i : ℕ) : ℝ :=
  Real.sin ((i : ℝ) / ((N : ℝ) - 1) * Real.pi / 2)

end XfadePreview

open Blends BlendEnvelopes XfadePreview

/-- **C2** counterexample.  The `"overlap"` blend envelope
(`applyBlendEnvelope`, cited by the claim as an equal-power generator and
commented `Equal-power` in the source) sets `gainA = cos²θ`, `gainB = sin²θ`;
at the midpoint step 64 of 128 the sum of the *squares* of its gains is 1/2,
not 1, refuting `gA(x)² + gB(x)² = 1` for this generator. -/
theorem overlap_squares_not_equal_power :
    overlapGainA 128 64 ^ 2 + overlapGainB 128 64 ^ 2 = 1 / 2 := by
  have h64 : ((64 : ℕ) : ℝ) / ((128 : ℕ) : ℝ) * (Real.pi / 2) = Real.pi / 4 := by
    push_cast
    ring
  rw [overlapGainA, overlapGainB, h64, Real.cos_pi_div_four, Real.sin_pi_div_four]
  have h2 : (0 : ℝ) ≤ 2 := by norm_num
  have hs : Real.sqrt 2 ^ 2 = 2 := Real.sq_sqrt h2
  ring_nf
  nlinarith [hs]

/-- **C2** (amended).  The genuinely equal-power gain-curve generators —
`makeCurve "equalPower"`, the `"ducked"` incoming curve paired with the
equal-power base, and the preview's `aCurve`/`bCurve` — satisfy
`gA² + gB² = 1` exactly at every curve sample; the `"overlap"` blend envelope
instead satisfies `gA + gB = 1` (its gains are `cos²θ` and `sin²θ`), so the
sum of its squared gains is not 1 in the interior. -/
theorem equal_power_curves_unit_energy (n i steps j N m : ℕ) :
    makeCurveA .equalPower n i ^ 2 + makeCurveB .equalPower n i ^ 2 = 1 ∧
    aCurve N m ^ 2 + bCurve N m ^ 2 = 1 ∧
    overlapGainA steps j + overlapGainB steps j = 1 := by
  refine ⟨?_, ?_, ?_⟩
  · rw [makeCurveA, makeCurveB]
    exact Real.cos_sq_add_sin_sq _
  · rw [aCurve, bCurve]
    exact Real.cos_sq_add_sin_sq _
  · rw [overlapGainA, overlapGainB]
    exact Real.cos_sq_add_sin_sq _

/-- **C3** counterexample.  Under `blend = "cut"` (`makeCurve`,
`unnamed/part_013`, lines 32–35) the incoming gain is `gb = x > 0 ? 1 : 0`,
so at the interior sample `i = 1` of the 256-point curve — `x = 1/255 < 1` —
the incoming track's gain is 1, not 0 as the claim requires for all `x < 1`. -/
theorem cut_gainB_one_interior :
    makeCurveB .cut 256 1 = 1 ∧ (1 : ℝ) / ((256 : ℝ) - 1) < 1 := by
  constructor
  · rw [makeCurveB]
    norm_num
  · norm_num

/-- **C3** (amended).  Under `"cut"`, the incoming curve is
`gB(0) = 0` and `gB(x) = 1` for every `x > 0` (in particular `gB(1) = 1`),
while the outgoing curve is `gA(x) = 1` for every `x < 1` and `gA(1) = 0`:
both tracks are at full gain throughout the interior of the fade window, so
the fade has full (not zero) intermediate mixing energy. -/
theorem cut_curve_values (n i j : ℕ) (hn : 2 ≤ n) (hi : 0 < i)
    (hj : j < n - 1) :
    makeCurveB .cut n 0 = 0 ∧ makeCurveB .cut n i = 1 ∧
    makeCurveA .cut n j = 1 ∧ makeCurveA .cut n (n - 1) = 0 := by
  have hn1 : (1 : ℝ) ≤ (n : ℝ) - 1 := by
    have : (2 : ℝ) ≤ (n : ℝ) := by exact_mod_cast hn
    linarith
  have hpos : (0 : ℝ) < (n : ℝ) - 1 := by linarith
  refine ⟨?_, ?_, ?_, ?_⟩
  · rw [makeCurveB]
    norm_num
  · rw [makeCurveB]
    have : (0 : ℝ) < (i : ℝ) / ((n : ℝ) - 1) := by
      apply div_pos _ hpos
      exact_mod_cast hi
    simp [this]
  · rw [makeCurveA]
    have hjlt : (j : ℝ) < (n : ℝ) - 1 := by
      have h1 : (j : ℝ) < ((n - 1 : ℕ) : ℝ) := by exact_mod_cast hj
      have h2 : ((n - 1 : ℕ) : ℝ) = (n : ℝ) - 1 := by
        have : 1 ≤ n := le_trans (by norm_num) hn
        push_cast [Nat.cast_sub this]
        ring
      linarith [h2 ▸ h1]
    have : (j : ℝ) / ((n : ℝ) - 1) < 1 := (div_lt_one hpos).mpr hjlt
    simp [this]
  · rw [makeCurveA]
    have h2 : (((n - 1 : ℕ)) : ℝ) = (n : ℝ) - 1 := by
      have : 1 ≤ n := le_trans (by norm_num) hn
      push_cast [Nat.cast_sub this]
      ring
    have : (((n - 1 : ℕ)) : ℝ) / ((n : ℝ) - 1) = 1 := by
      rw [h2]
      exact div_self (ne_of_gt hpos)
    simp [this]

/-- Witness for `cut_curve_values` at `n = 256`, `i = 1`, `j = 254`. -/
theorem cut_curve_values_witness :
    2 ≤ 256 ∧ 0 < 1 ∧ 254 < 256 - 1 ∧
    (makeCurveB .cut 256 0 = 0 ∧ makeCurveB .cut 256 1 = 1 ∧
     makeCurveA .cut 256 254 = 1 ∧ makeCurveA .cut 256 (256 - 1) = 0) :=
  ⟨by norm_num, by norm_num, by norm_num,
   cut_curve_values 256 1 254 (by norm_num) (by norm_num) (by norm_num)⟩

/-! ## Tempo matching (claim C6) -/

namespace TempoMatch

/-- The "safe BPM" guard of `mixTracks` (`src/lib/mixTracks.ts`, lines
148–149): `Number.isFinite(bpm) && bpm > 0 ? bpm : 120`.  Non-finite values
do not arise in the exact rational model, leaving the positivity test. -/
def safeBpm (x : ℚ) : ℚ := if 0 < x then x else 120

/-- Playback rate applied to track B by `mixTracks` (`src/lib/mixTracks.ts`,
lines 154–156): `playbackRateB = bpmA / bpmB` then
`Math.min(1.02, Math.max(0.98, playbackRateB))`, on the safe BPMs. -/
def mixTracksPlaybackRateB (bpmA bpmB : ℚ) : ℚ :=
  min 1.02 (max 0.98 (safeBpm bpmA / safeBpm bpmB))

/-- The beatmatch ratio computed by the QA page's `onRender`
(`unnamed/part_005`, line 91), when beatmatch is enabled and both analyses
exist: `analysisA.bpm > 0 ? analysisB.bpm / analysisA.bpm : 1`. -/
def qaBeatmatchRatio (bpmA bpmB : ℚ) : ℚ :=
  if 0 < bpmA then bpmB / bpmA else 1

/-- Playback rate actually applied to source B by `renderTwoBarPreview`
(`src/lib/audio/xfadePreview.ts`, lines 59–61):
`if (beatmatchRatio && isFinite(beatmatchRatio) && beatmatchRatio > 0)
 sB.playbackRate.setValueAtTime(beatmatchRatio, 0)`, else the rate stays 1. -/
def previewAppliedRateB (ratio : ℚ) : ℚ := if 0 < ratio then ratio else 1

end TempoMatch

open TempoMatch

/-- **C6** counterexample.  With BPM estimates `bpmA = 120`, `bpmB = 60`, the
QA preview render path applies playback rate `bpmB / bpmA = 1/2` to track B —
not `bpmA / bpmB` clamped to `[0.98, 1.02]` (which is `1.02`, as the
`mixTracks` path computes).  So the claimed rate law does not hold for every
render. -/
theorem qa_rate_unclamped :
    previewAppliedRateB (qaBeatmatchRatio 120 60) = 1 / 2 ∧
    mixTracksPlaybackRateB 120 60 = 1.02 ∧
    previewAppliedRateB (qaBeatmatchRatio 120 60) ≠
      min 1.02 (max 0.98 ((120 : ℚ) / 60)) := by
  refine ⟨?_, ?_, ?_⟩ <;>
    norm_num [previewAppliedRateB, qaBeatmatchRatio, mixTracksPlaybackRateB,
      safeBpm]

/-- **C6** (amended).  Two tempo-matching policies coexist: for positive BPM
estimates, `mixTracks` applies `bpmA / bpmB` hard-clamped to `[0.98, 1.02]`
(and its rate always lies in that interval), while the QA preview path
applies the inverse ratio `bpmB / bpmA` with no clamp at all. -/
theorem tempo_policies_coexist (bpmA bpmB : ℚ) (hA : 0 < bpmA)
    (hB : 0 < bpmB) :
    mixTracksPlaybackRateB bpmA bpmB = min 1.02 (max 0.98 (bpmA / bpmB)) ∧
    0.98 ≤ mixTracksPlaybackRateB bpmA bpmB ∧
    mixTracksPlaybackRateB bpmA bpmB ≤ 1.02 ∧
    previewAppliedRateB (qaBeatmatchRatio bpmA bpmB) = bpmB / bpmA := by
  have hsA : safeBpm bpmA = bpmA := if_pos hA
  have hsB : safeBpm bpmB = bpmB := if_pos hB
  refine ⟨by rw [mixTracksPlaybackRateB, hsA, hsB], ?_, ?_, ?_⟩
  · rw [mixTracksPlaybackRateB]
    exact le_min (by norm_num) (le_max_left _ _)
  · exact min_le_left _ _
  · have hr : 0 < bpmB / bpmA := div_pos hB hA
    rw [qaBeatmatchRatio, if_pos hA, previewAppliedRateB, if_pos hr]

/-- Witness for `tempo_policies_coexist` at `bpmA = 120`, `bpmB = 60`. -/
theorem tempo_policies_coexist_witness :
    (0 : ℚ) < 120 ∧ (0 : ℚ) < 60 ∧
    (mixTracksPlaybackRateB 120 60 = min 1.02 (max 0.98 ((120 : ℚ) / 60)) ∧
     0.98 ≤ mixTracksPlaybackRateB 120 60 ∧
     mixTracksPlaybackRateB 120 60 ≤ 1.02 ∧
     previewAppliedRateB (qaBeatmatchRatio 120 60) = (60 : ℚ) / 120) :=
  ⟨by norm_num, by norm_num,
   tempo_policies_coexist 120 60 (by norm_num) (by norm_num)⟩

/-! ## Fixed-window preview duration (claim C9) -/

namespace MixV2

/-- `SplicePlan` of `src/lib/analysis/splicePlanner.ts` (lines 6–13):
`fadeStart` and `fadeDur` in seconds on track A, `entryBeatB` the entry
offset into track B in seconds. -/
structure SplicePlan where
  fadeStart : ℚ
  fadeDur : ℚ
  entryBeatB : ℚ

/-- Output sample rate fixed by `mixTracks` (`src/lib/mixTracks.ts`,
line 133): 44100 Hz. -/
def sampleRate : ℚ := 44100

/-- Frame count produced by `sliceAudioBuffer buffer startSec endSec`
(`unnamed/part_006`): `start = max(0, ⌊startSec·sr⌋)`,
`end = min(buffer.length, ⌊endSec·sr⌋)`, `length = max(0, end - start)`. -/
def sliceFrames (bufFrames : ℤ) (sr startSec endSec : ℚ) : ℤ :=
  let start := max 0 ⌊startSec * sr⌋
  let stop := min bufFrames ⌊endSec * sr⌋
  max 0 (stop - start)

/-- The fixed-window preview branch of `mixTracks` (`src/lib/mixTracks.ts`,
lines 158–186), modelled on its length-relevant computations: `PRE = 15`,
`POST = 15`, `windowStart = max(0, fadeStart - PRE)` (a pure scheduling
offset), an `OfflineAudioContext` of `⌈windowDur · sampleRate⌉` frames —
an offline context renders exactly its `length` frames — and a final
safety trim `sliceAudioBuffer(rendered, 0, windowDur)`.  The plan and the
two source durations are taken as parameters to record that the emitted
length does not depend on them (they only steer what audio is scheduled
inside the window, via `buildMixGraph`). -/
def previewOutputFrames (plan : SplicePlan) (durA durB : ℚ) : ℤ :=
  let PRE : ℚ := 15
  let POST : ℚ := 15
  let _windowStart := max 0 (plan.fadeStart - PRE)
  let windowDur := PRE + POST
  let renderedFrames : ℤ := ⌈windowDur * sampleRate⌉
  let _ := (durA, durB)
  sliceFrames renderedFrames sampleRate 0 windowDur

/-- Duration in seconds of the returned preview buffer
(`AudioBuffer.duration = length / sampleRate`). -/
def previewOutputDurationSec (plan : SplicePlan) (durA durB : ℚ) : ℚ :=
  (previewOutputFrames plan durA durB : ℚ) / sampleRate

end MixV2

/-- **C9** (confirmed).  For every splice plan and every pair of source track
durations, the fixed-window preview render of `mixTracks`
(`PRE = POST = 15` s) returns a buffer of exactly 30 seconds:
`⌈30 · 44100⌉ = 1323000` frames are rendered, the safety trim keeps all of
them, and `1323000 / 44100 = 30`. -/
theorem preview_duration_is_thirty (plan : MixV2.SplicePlan) (durA durB : ℚ) :
    MixV2.previewOutputDurationSec plan durA durB = 30 := by
  have hfr : MixV2.previewOutputFrames plan durA durB = 1323000 := by
    rw [MixV2.previewOutputFrames, MixV2.sliceFrames, MixV2.sampleRate]
    norm_num
  rw [MixV2.previewOutputDurationSec, hfr, MixV2.sampleRate]
  norm_num

/-! ## Offline render output of the first `mixTracks` variant (claim C1) -/

namespace MixV1

/-- `regionDur` of the first `mixTracks` variant (`src/lib/mixTracks.ts`,
lines 29–35): `previewOnly ? 45 : Math.max(45, crossfadeSec + 20)`; the
splice is placed at `regionDur / 2`. -/
noncomputable def regionDur (previewOnly : Bool) (crossfadeSec : ℝ) : ℝ :=
  if previewOnly then 45 else max 45 (crossfadeSec + 20)

/-- `spliceCenter = regionDur / 2` (`src/lib/mixTracks.ts`, line 35). -/
noncomputable def spliceCenter (previewOnly : Bool) (crossfadeSec : ℝ) : ℝ :=
  regionDur previewOnly crossfadeSec / 2

/-- Value of an `AudioParam` automated by `setValueAtTime(init, 0)` followed
by `setValueCurveAtTime(curve, start, dur)` — the schedule `applyBlend`
installs on the two gain nodes (`unnamed/part_013`, lines 44–55) — per the
Web Audio processing model: before `start` the parameter holds `init`;
during `[start, start + dur)` it linearly interpolates the `n` curve samples
at position `(t - start) / dur · (n - 1)`; from `start + dur` on it holds
the final sample. -/
noncomputable def curveParamAt (init : ℝ) (f : ℕ → ℝ) (n : ℕ)
    (start dur t : ℝ) : ℝ :=
  if t < start then init
  else if t < start + dur then
    let pos := (t - start) / dur * ((n : ℝ) - 1)
    let k := ⌊pos⌋
    f k.toNat + (pos - (k : ℝ)) * (f (k.toNat + 1) - f k.toNat)
  else f (n - 1)

/-- Destination-bus output of `basicCrossfade` (`unnamed/part_012`,
lines 194–212) at render time `t`.  The decoded tracks are modelled as their
sample streams `bufA bufB : ℝ → ℝ` (sample value at a position inside the
track).  `srcA` plays from offset `offsetA = max(30, durA - (spliceCenter +
crossfadeSec))` starting at time 0; `srcB` starts at `fadeStart =
spliceCenter - crossfadeSec / 2` from offset 0; the destination sums the two
gain-staged sources (`srcA→gA→destination`, `srcB→gB→destination` — there is
no master-gain or normalization stage in this path, and the rendered buffer
is encoded to WAV as-is). -/
noncomputable def basicCrossfadeOut (bufA bufB : ℝ → ℝ) (durA : ℝ)
    (spliceCenter crossfadeSec : ℝ) (blend : Blend) (t : ℝ) : ℝ :=
  let fadeStart := spliceCenter - crossfadeSec / 2
  let offsetA := max 30 (durA - (spliceCenter + crossfadeSec))
  let gA := curveParamAt 1 (Blends.makeCurveA blend 256) 256
    fadeStart crossfadeSec t
  let gB := curveParamAt 0 (Blends.makeCurveB blend 256) 256
    fadeStart crossfadeSec t
  gA * bufA (offsetA + t) +
    gB * (if fadeStart ≤ t then bufB (t - fadeStart) else 0)

/-- The peak→dBFS conversion used by the renderers' metering
(`src/lib/audio/xfadePreview.ts`, line 146):
`peakDb = 20 * Math.log10(Math.max(1e-6, peak))`. -/
noncomputable def peakDb (peak : ℝ) : ℝ :=
  20 * Real.logb 10 (max (1e-6) peak)

end MixV1

/-- On the quarter of the unit circle, the coordinates sum to at least 1. -/
theorem circle_coord_sum_ge_one {c s : ℝ} (hc : 0 ≤ c) (hs : 0 ≤ s)
    (h : c ^ 2 + s ^ 2 = 1) : 1 ≤ c + s := by
  nlinarith [mul_nonneg hc hs]

/-- **C1** (code bug).  At the failing input — both decoded tracks constant
full-scale (all samples 1), the default equal-power blend, `crossfadeSec =
5.1`, preview region 45 s so `spliceCenter = 22.5` — the `basicCrossfade`
render of the first `mixTracks` variant produces, at `t = 22.51` s (curve
sample 128 of 256, mid-fade), the sample `cos θ + sin θ ≥ 1` with
`θ = (π/2)·(128/255)`: at least 0 dBFS, far above the required −0.3 dBFS.
No headroom or normalization step exists anywhere in this render path, so
the output is returned as-is, contradicting the spec and the repository's
own QA checklist (`unnamed/part_000`: "peak < −0.3 dBFS"). -/
theorem render_peak_exceeds_limit :
    MixV1.spliceCenter true 5.1 = 22.5 ∧
    1 ≤ MixV1.basicCrossfadeOut (fun _ => 1) (fun _ => 1) 300 22.5 5.1
        .equalPower 22.51 ∧
    -0.3 < MixV1.peakDb (MixV1.basicCrossfadeOut (fun _ => 1) (fun _ => 1)
        300 22.5 5.1 .equalPower 22.51) := by
  have hsplice : MixV1.spliceCenter true 5.1 = 22.5 := by
    rw [MixV1.spliceCenter, MixV1.regionDur]
    norm_num
  set θ : ℝ := Real.pi / 2 * ((128 : ℝ) / 255) with hθ
  have hout : MixV1.basicCrossfadeOut (fun _ => 1) (fun _ => 1) 300 22.5 5.1
      .equalPower 22.51 = Real.cos θ + Real.sin θ := by
    rw [MixV1.basicCrossfadeOut]
    have h1 : ¬ ((22.51 : ℝ) < 22.5 - 5.1 / 2) := by norm_num
    have h2 : ((22.51 : ℝ) < 22.5 - 5.1 / 2 + 5.1) := by norm_num
    have hpos : ((22.51 : ℝ) - (22.5 - 5.1 / 2)) / 5.1 * (((256 : ℕ) : ℝ) - 1)
        = ((128 : ℤ) : ℝ) := by norm_num
    rw [MixV1.curveParamAt, MixV1.curveParamAt]
    rw [if_neg h1, if_neg h1, if_pos h2, if_pos h2]
    simp only [hpos, Int.floor_intCast]
    norm_num [Blends.makeCurveA, Blends.makeCurveB]
    rw [show Int.toNat 128 = 128 from rfl]
    push_cast
    ring_nf
  have hc : 0 ≤ Real.cos θ := by
    apply Real.cos_nonneg_of_mem_Icc
    constructor
    · have hpi : 0 ≤ Real.pi := Real.pi_nonneg
      nlinarith
    · have hpi : 0 ≤ Real.pi := Real.pi_nonneg
      rw [hθ]
      nlinarith
  have hs : 0 ≤ Real.sin θ := by
    apply Real.sin_nonneg_of_nonneg_of_le_pi
    · have hpi : 0 ≤ Real.pi := Real.pi_nonneg
      rw [hθ]
      nlinarith
    · have hpi : 0 ≤ Real.pi := Real.pi_nonneg
      rw [hθ]
      nlinarith
  have hone : 1 ≤ Real.cos θ + Real.sin θ :=
    circle_coord_sum_ge_one hc hs (Real.cos_sq_add_sin_sq θ)
  refine ⟨hsplice, by rw [hout]; exact hone, ?_⟩
  rw [hout, MixV1.peakDb]
  have hmax : (1 : ℝ) ≤ max (1e-6) (Real.cos θ + Real.sin θ) :=
    le_max_of_le_right hone
  have hlog : 0 ≤ Real.logb 10 (max (1e-6) (Real.cos θ + Real.sin θ)) :=
    Real.logb_nonneg (by norm_num) hmax
  linarith

/-! ## Candidate scoring (claim C10) -/

namespace Score

/-- `EssentiaAnalysisResult` of the fallback-analyzer contract
(`src/lib/analysis/essentiaClient.ts`, lines 206–214), restricted to the
fields the scorer and candidate generator read (`key` and `sampleRate` are
never used by them). -/
structure EssentiaAnalysisResult where
  bpm : ℚ
  beats : List ℚ
  onsets : List ℚ
  rms : List ℚ
  frameHopSec : ℚ
  deriving DecidableEq

/-- `Candidate` (`src/lib/analysis/candidates.ts`, lines 124–130).  The two
optional `fromBoundaryA/B?` flags default to `false` (`undefined` is falsy
everywhere they are read). -/
structure Candidate where
  tA : ℚ
  tB : ℚ
  isDownbeatA : Bool
  isDownbeatB : Bool
  isStrongOnsetA : Bool
  isStrongOnsetB : Bool
  isValleyA : Bool
  isValleyB : Bool
  fromBoundaryA : Bool := false
  fromBoundaryB : Bool := false
  deriving DecidableEq

/-- `Weights` (`src/lib/analysis/score.ts`, lines 5–13). -/
structure Weights where
  wDownbeat : ℚ
  wEnergy : ℚ
  wTempo : ℚ
  wOnsetClash : ℚ
  wValley : ℚ
  wBoundary : ℚ
  wEdgePenalty : ℚ
  deriving DecidableEq

/-- `DEFAULT_WEIGHTS` (`src/lib/analysis/score.ts`, lines 14–17). -/
def DEFAULT_WEIGHTS : Weights :=
  ⟨1.2, 0.9, 0.6, 0.7, 0.6, 0.4, 0.8⟩

/-- The subscore record stored by `scoreCandidates` (line 80): a fixed-key
`Record<string, number>`. -/
structure Subscores where
  sDownbeat : ℚ
  sEnergy : ℚ
  sTempo : ℚ
  clash : ℚ
  sValley : ℚ
  sBoundary : ℚ
  penEdge : ℚ
  deriving DecidableEq

/-- `ScoredCandidate extends Candidate { score; subscores }`
(`src/lib/analysis/score.ts`, line 19). -/
structure ScoredCandidate extends Candidate where
  score : ℚ
  subscores : Subscores
  deriving DecidableEq

/-- JavaScript `Math.round`: round half toward `+∞`. -/
def jsRound (q : ℚ) : ℤ := ⌊q + 1 / 2⌋

/-- `timeToFrame` (`src/lib/analysis/score.ts`, line 22):
`Math.max(0, Math.round(t / hop))`. -/
def timeToFrame (t hop : ℚ) : ℤ := max 0 (jsRound (t / hop))

/-- Sum and term count of `rms[i]` for `i` running from `lo` to `hi`
inclusive — the accumulation loops of `localTrend`.  (Out-of-range reads
contribute 0; the loop bounds keep indices in range for every frame the
scorer produces on non-empty `rms`.) -/
def sumCount (rms : List ℚ) (lo hi : ℤ) : ℚ × ℕ :=
  let idxs := (List.range (hi + 1 - lo).toNat).map (fun k => lo + (k : ℤ))
  (idxs.foldl (fun s i => s + rms.getD i.toNat 0) 0, idxs.length)

/-- `localTrend` (`src/lib/analysis/score.ts`, lines 23–30): mean RMS over
the `halfWin` frames before `f` and after `f`, clamped to the array. -/
def localTrend (rms : List ℚ) (f : ℤ) (halfWin : ℤ := 6) : ℚ × ℚ :=
  let a0 := max 0 (f - halfWin)
  let a1 := max 0 (f - 1)
  let b0 := min ((rms.length : ℤ) - 1) (f + 1)
  let b1 := min ((rms.length : ℤ) - 1) (f + halfWin)
  let sa := (sumCount rms a0 a1).1
  let na := (sumCount rms a0 a1).2
  let sb := (sumCount rms b0 b1).1
  let nb := (sumCount rms b0 b1).2
  (if na = 0 then 0 else sa / na, if nb = 0 then 0 else sb / nb)

/-- `onsetCount` (`src/lib/analysis/score.ts`, line 31):
`on.reduce((c, t) => c + (t >= t0 && t <= t1 ? 1 : 0), 0)`. -/
def onsetCount (ons : List ℚ) (t0 t1 : ℚ) : ℚ :=
  ons.foldl (fun c t => c + (if t0 ≤ t ∧ t ≤ t1 then 1 else 0)) 0

/-- `edgePenalty` (`src/lib/analysis/score.ts`, lines 33–40). -/
def edgePenalty (t dur : ℚ) : ℚ :=
  let pad : ℚ := 15
  let taper : ℚ := 30
  let distStart := max 0 (pad - t)
  let distEnd := max 0 (pad - (dur - t))
  let raw := max distStart distEnd
  min 1 (raw / taper)

/-- `XF_SEC` (`src/lib/analysis/score.ts`, line 21). -/
def XF_SEC : ℚ := 0.09

/-- Body of the per-candidate loop of `scoreCandidates`
(`src/lib/analysis/score.ts`, lines 49–80): computes the subscores and the
weighted total, and pushes `{ ...c, score, subscores }`. -/
def scoreOne (c : Candidate) (A B : EssentiaAnalysisResult) (w : Weights) :
    ScoredCandidate :=
  let sDownbeat : ℚ := if c.isDownbeatA && c.isDownbeatB then 1 else 0
  let fA := timeToFrame c.tA A.frameHopSec
  let fB := timeToFrame c.tB B.frameHopSec
  let a := localTrend A.rms fA
  let b := localTrend B.rms fB
  let aValley := max 0 (a.1 - a.2)
  let bRise := max 0 (b.2 - b.1)
  let sEnergy := 0.5 * (aValley + bRise)
  let tempoDiffPct := min 1 (|A.bpm - B.bpm| / max 1 A.bpm)
  let sTempo := 1 - tempoDiffPct
  let clash := min 1 ((onsetCount A.onsets (c.tA - XF_SEC) (c.tA + XF_SEC) +
    onsetCount B.onsets (c.tB - XF_SEC) (c.tB + XF_SEC)) / 4)
  let sValley := (if c.isValleyA then (1 : ℚ) / 2 else 0) +
    (if c.isValleyB then (1 : ℚ) / 2 else 0)
  let sBoundary := (if c.fromBoundaryA then (1 : ℚ) / 2 else 0) +
    (if c.fromBoundaryB then (1 : ℚ) / 2 else 0)
  let durA := A.beats.getLastD ((A.rms.length : ℚ) * A.frameHopSec)
  let durB := B.beats.getLastD ((B.rms.length : ℚ) * B.frameHopSec)
  let penEdge := 0.5 * edgePenalty c.tA durA + 0.5 * edgePenalty c.tB durB
  let score := w.wDownbeat * sDownbeat + w.wEnergy * sEnergy +
    w.wTempo * sTempo + w.wValley * sValley + w.wBoundary * sBoundary -
    w.wOnsetClash * clash - w.wEdgePenalty * penEdge
  { c with
    score := score
    subscores := ⟨sDownbeat, sEnergy, sTempo, clash, sValley, sBoundary,
      penEdge⟩ }

/-- `scoreCandidates` (`src/lib/analysis/score.ts`, lines 42–84): maps every
candidate through the scoring body, then sorts descending by score
(`out.sort((x, y) => y.score - x.score)`).  The comparator sort is modelled
by insertion sort on `y.score ≤ x.score`; like `Array.prototype.sort`, it
returns a permutation of its input. -/
def scoreCandidates (cs : List Candidate) (A B : EssentiaAnalysisResult)
    (w : Weights) : List ScoredCandidate :=
  List.insertionSort (fun x y => y.score ≤ x.score)
    (cs.map (fun c => scoreOne c A B w))

end Score

/-- **C10** (confirmed).  `scoreCandidates` emits exactly one scored
candidate per input candidate — the outputs stripped of their score are a
permutation of the inputs, so nothing is dropped or added — and every
output element is exactly its input candidate (all of `tA`, `tB` and the
boolean flags unchanged) extended with only the `score` and `subscores`
fields of the scoring body. -/
theorem scoreCandidates_one_per_input (cs : List Score.Candidate)
    (A B : Score.EssentiaAnalysisResult) (w : Score.Weights)
    (sc : Score.ScoredCandidate)
    (hsc : sc ∈ Score.scoreCandidates cs A B w) :
    ((Score.scoreCandidates cs A B w).map
      Score.ScoredCandidate.toCandidate).Perm cs ∧
    (Score.scoreCandidates cs A B w).length = cs.length ∧
    sc.toCandidate ∈ cs ∧ sc = Score.scoreOne sc.toCandidate A B w := by
  have h1 : (Score.scoreCandidates cs A B w).Perm
      (cs.map (fun c => Score.scoreOne c A B w)) :=
    List.perm_insertionSort _ _
  have hperm : ((Score.scoreCandidates cs A B w).map
      Score.ScoredCandidate.toCandidate).Perm cs := by
    have h2 := h1.map Score.ScoredCandidate.toCandidate
    rwa [List.map_map, show (Score.ScoredCandidate.toCandidate ∘
      fun c => Score.scoreOne c A B w) = id from rfl, List.map_id] at h2
  have hlen : (Score.scoreCandidates cs A B w).length = cs.length := by
    have := hperm.length_eq
    rwa [List.length_map] at this
  obtain ⟨c, hc, hce⟩ := List.mem_map.mp (h1.subset hsc)
  refine ⟨hperm, hlen, ?_, ?_⟩
  · rw [← hce]
    exact hc
  · rw [← hce]
    rfl

/-- Witness for `scoreCandidates_one_per_input`: one concrete candidate
scored against two concrete analyses. -/
theorem scoreCandidates_one_per_input_witness :
    (Score.scoreOne ⟨0, 0, false, false, false, false, false, false,
        false, false⟩ ⟨120, [], [], [1, 1], 1⟩ ⟨120, [], [], [1, 1], 1⟩
        Score.DEFAULT_WEIGHTS ∈
      Score.scoreCandidates [⟨0, 0, false, false, false, false, false,
        false, false, false⟩] ⟨120, [], [], [1, 1], 1⟩
        ⟨120, [], [], [1, 1], 1⟩ Score.DEFAULT_WEIGHTS) ∧
    (((Score.scoreCandidates [⟨0, 0, false, false, false, false, false,
        false, false, false⟩] ⟨120, [], [], [1, 1], 1⟩
        ⟨120, [], [], [1, 1], 1⟩ Score.DEFAULT_WEIGHTS).map
      Score.ScoredCandidate.toCandidate).Perm
        [⟨0, 0, false, false, false, false, false, false, false, false⟩] ∧
     (Score.scoreCandidates [⟨0, 0, false, false, false, false, false,
        false, false, false⟩] ⟨120, [], [], [1, 1], 1⟩
        ⟨120, [], [], [1, 1], 1⟩ Score.DEFAULT_WEIGHTS).length =
       [(⟨0, 0, false, false, false, false, false, false, false, false⟩ :
         Score.Candidate)].length ∧
     (Score.scoreOne ⟨0, 0, false, false, false, false, false, false,
        false, false⟩ ⟨120, [], [], [1, 1], 1⟩ ⟨120, [], [], [1, 1], 1⟩
        Score.DEFAULT_WEIGHTS).toCandidate ∈
       [(⟨0, 0, false, false, false, false, false, false, false, false⟩ :
         Score.Candidate)] ∧
     Score.scoreOne ⟨0, 0, false, false, false, false, false, false,
        false, false⟩ ⟨120, [], [], [1, 1], 1⟩ ⟨120, [], [], [1, 1], 1⟩
        Score.DEFAULT_WEIGHTS =
       Score.scoreOne (Score.scoreOne ⟨0, 0, false, false, false, false,
        false, false, false, false⟩ ⟨120, [], [], [1, 1], 1⟩
        ⟨120, [], [], [1, 1], 1⟩ Score.DEFAULT_WEIGHTS).toCandidate
        ⟨120, [], [], [1, 1], 1⟩ ⟨120, [], [], [1, 1], 1⟩
        Score.DEFAULT_WEIGHTS) :=
  have hmem : Score.scoreOne ⟨0, 0, false, false, false, false, false,
      false, false, false⟩ ⟨120, [], [], [1, 1], 1⟩ ⟨120, [], [], [1, 1], 1⟩
      Score.DEFAULT_WEIGHTS ∈
      Score.scoreCandidates [⟨0, 0, false, false, false, false, false,
        false, false, false⟩] ⟨120, [], [], [1, 1], 1⟩
        ⟨120, [], [], [1, 1], 1⟩ Score.DEFAULT_WEIGHTS :=
    List.mem_singleton.mpr rfl
  ⟨hmem, scoreCandidates_one_per_input _ _ _ _ _ hmem⟩

/-! ## Segment boundaries and valleys (`src/lib/analysis/segments.ts`),
used by the candidate generator of claim C5 -/

namespace Util

/-- JavaScript array read `arr[i] ?? 0` with a signed index: out-of-range
(including negative) reads yield the default 0. -/
def getQ {α : Type} [Zero α] (l : List α) (i : ℤ) : α :=
  if 0 ≤ i then l.getD i.toNat 0 else 0

/-- The integers from `lo` to `hi` inclusive (a `for (i = lo; i <= hi; i++)`
loop's index sequence). -/
def intRange (lo hi : ℤ) : List ℤ :=
  (List.range (hi + 1 - lo).toNat).map (fun k => lo + (k : ℤ))

end Util

namespace Segments

open Util

/-- `SegmentBoundary` (`src/lib/analysis/segments.ts`, line 4). -/
structure SegmentBoundary where
  time : ℚ
  strength : ℚ
  deriving DecidableEq

/-- Novelty value `nov[i]` computed by `estimateBoundaries`
(`src/lib/analysis/segments.ts`, lines 20–28): the checkerboard-kernel sum
`a + b` for `W ≤ i < N - W`, and the array's initial fill 0 elsewhere. -/
def novelty (x : List ℚ) (i : ℤ) : ℚ :=
  let W : ℤ := 12
  let N : ℤ := x.length
  if W ≤ i ∧ i < N - W then
    (List.range 12).foldl (fun s u0 =>
      let u : ℤ := (u0 : ℤ) + 1
      s + |getQ x (i - u) - getQ x (i + (W - u + 1))| +
        |getQ x (i - (W - u + 1)) - getQ x (i + u)|) 0
  else 0

/-- `estimateBoundaries` (`src/lib/analysis/segments.ts`, lines 8–37):
normalize RMS by its running maximum (seeded `1e-9`), build the novelty
curve, then peak-pick `nov[i] > nov[i±1]` above the fixed 0.15 threshold for
`2 ≤ i < N - 2`. -/
def estimateBoundaries (ana : Score.EssentiaAnalysisResult) :
    List SegmentBoundary :=
  let hop := ana.frameHopSec
  let rms := ana.rms
  let N : ℤ := rms.length
  if N < 3 then []
  else
    let mx := rms.foldl max (1e-9 : ℚ)
    let x := rms.map (· / mx)
    ((List.range rms.length).filter (fun (i : ℕ) =>
        2 ≤ (i : ℤ) ∧ (i : ℤ) < N - 2 ∧
        novelty x ((i : ℤ) - 1) < novelty x (i : ℤ) ∧
        novelty x ((i : ℤ) + 1) < novelty x (i : ℤ) ∧
        (0.15 : ℚ) < novelty x (i : ℤ))).map
      (fun (i : ℕ) => ⟨(i : ℚ) * hop, novelty x (i : ℤ)⟩)

/-- `isValley` (`src/lib/analysis/segments.ts`, lines 63–72): local RMS at
the frame of `t` is below 85 % of the mean RMS in a symmetric window of
`max(2, round(halfWinSec / hop))` frames. -/
def isValley (ana : Score.EssentiaAnalysisResult) (t : ℚ)
    (halfWinSec : ℚ := 0.6) : Bool :=
  let hop := ana.frameHopSec
  let f : ℤ := Score.jsRound (t / hop)
  let hw : ℤ := max 2 (Score.jsRound (halfWinSec / hop))
  let beforeIdx := intRange (max 0 (f - hw)) (f - 1)
  let afterIdx := intRange f (min ((ana.rms.length : ℤ) - 1) (f + hw))
  let before := (beforeIdx.map (fun i => getQ ana.rms i)).sum
  let nb : ℚ := beforeIdx.length
  let after := (afterIdx.map (fun i => getQ ana.rms i)).sum
  let na : ℚ := afterIdx.length
  let mean := (before + after) / max 1 (nb + na)
  getQ ana.rms f < mean * 0.85

end Segments

/-! ## The `src/lib/analysis/candidates.ts` generator (claim C5) -/

namespace CandidatesTs

/-- `TimeRange` (`src/lib/analysis/candidates.ts`, line 122). -/
structure TimeRange where
  startSec : ℚ
  endSec : ℚ
  deriving DecidableEq

/-- `near` (`src/lib/analysis/candidates.ts`, line 137):
`list.some(x => Math.abs(x - t) <= tol)`. -/
def near (list : List ℚ) (t : ℚ) (tol : ℚ := 0.06) : Bool :=
  list.any (fun x => |x - t| ≤ tol)

/-- The candidate record pushed by phase 1 of `generateCandidates`
(downbeat ↔ downbeat, lines 154–171). -/
def mkDownbeatPair (A B : Score.EssentiaAnalysisResult)
    (bndsA bndsB : List ℚ) (ta tb : ℚ) : Score.Candidate :=
  ⟨ta, tb, true, true, near A.onsets ta, near B.onsets tb,
    Segments.isValley A ta, Segments.isValley B tb,
    near bndsA ta 0.4, near bndsB tb 0.4⟩

/-- `beatsB.reduce((best, t) => |t - ta| < |best - ta| ? t : best,
beatsB[0] ?? 0)` — the nearest-beat fold of phase 2 (line 176). -/
def closestBeat (beatsB : List ℚ) (ta : ℚ) : ℚ :=
  beatsB.foldl (fun best t => if |t - ta| < |best - ta| then t else best)
    (beatsB.headD 0)

/-- The candidate record pushed by phase 2 (boundary-aligned, lines
174–186); `isFinite(closestBeatB)` always holds in the exact model. -/
def mkBoundaryPair (A B : Score.EssentiaAnalysisResult) (bndsB : List ℚ)
    (beatsB : List ℚ) (ta : ℚ) : Score.Candidate :=
  let tb := closestBeat beatsB ta
  ⟨ta, tb, false, false, near A.onsets ta, near B.onsets tb,
    Segments.isValley A ta, Segments.isValley B tb,
    true, near bndsB tb 0.4⟩

/-- The candidate record pushed by phase 3 (beat ↔ beat, lines 189–198);
its `fromBoundaryA/B` are left `undefined` (falsy). -/
def mkBeatPair (A B : Score.EssentiaAnalysisResult) (ta tb : ℚ) :
    Score.Candidate :=
  ⟨ta, tb, false, false, near A.onsets ta, near B.onsets tb,
    Segments.isValley A ta, Segments.isValley B tb, false, false⟩

/-- Inner loop of phase 3 over `beatsB` for a fixed `ta`, with the
`if (cand.length >= 120) break` check after each push (the `break` leaves
only the inner loop). -/
def sprinkleInner (A B : Score.EssentiaAnalysisResult) (ta : ℚ) :
    List ℚ → List Score.Candidate → List Score.Candidate
  | [], acc => acc
  | tb :: rest, acc =>
      let acc' := acc ++ [mkBeatPair A B ta tb]
      if 120 ≤ acc'.length then acc' else sprinkleInner A B ta rest acc'

/-- Outer loop of phase 3 over `beatsA`. -/
def sprinkleOuter (A B : Score.EssentiaAnalysisResult) (beatsB : List ℚ) :
    List ℚ → List Score.Candidate → List Score.Candidate
  | [], acc => acc
  | ta :: rest, acc =>
      sprinkleOuter A B beatsB rest (sprinkleInner A B ta beatsB acc)

/-- Dedup key `` `${Math.round(c.tA*100)}-${Math.round(c.tB*100)}` ``
(line 205); the two rounded integers determine the key string. -/
def dedupKey (c : Score.Candidate) : ℤ × ℤ :=
  (Score.jsRound (c.tA * 100), Score.jsRound (c.tB * 100))

/-- The dedup-and-cap loop of `generateCandidates` (lines 202–208). -/
def dedupLoop : List Score.Candidate → List (ℤ × ℤ) →
    List Score.Candidate → List Score.Candidate
  | [], _, uniq => uniq
  | c :: rest, seen, uniq =>
      let k := dedupKey c
      let seen' := if k ∈ seen then seen else k :: seen
      let uniq' := if k ∈ seen then uniq else uniq ++ [c]
      if 120 ≤ uniq'.length then uniq' else dedupLoop rest seen' uniq'

/-- `generateCandidates` (`src/lib/analysis/candidates.ts`, lines 139–210).
Note that the `crossfadeMs` and `sampleRate` options are accepted but never
read by the body: no crossfade-window check is performed. -/
def generateCandidates (A B : Score.EssentiaAnalysisResult)
    (rangeA rangeB : TimeRange) (crossfadeMs sampleRate : ℚ) :
    List Score.Candidate :=
  let _ := (crossfadeMs, sampleRate)
  let beatsA := A.beats.filter
    (fun t => rangeA.startSec ≤ t ∧ t ≤ rangeA.endSec)
  let beatsB := B.beats.filter
    (fun t => rangeB.startSec ≤ t ∧ t ≤ rangeB.endSec)
  let bndsA := ((Segments.estimateBoundaries A).map (·.time)).filter
    (fun t => rangeA.startSec ≤ t ∧ t ≤ rangeA.endSec)
  let bndsB := ((Segments.estimateBoundaries B).map (·.time)).filter
    (fun t => rangeB.startSec ≤ t ∧ t ≤ rangeB.endSec)
  let phase1 := (beatsA.enum.filter (fun p => p.1 % 4 = 0)).bind (fun pa =>
    (beatsB.enum.filter (fun p => p.1 % 4 = 0)).map (fun pb =>
      mkDownbeatPair A B bndsA bndsB pa.2 pb.2))
  let cand1 := if phase1.length < 32 then
      phase1 ++ bndsA.map (mkBoundaryPair A B bndsB beatsB)
    else phase1
  let cand2 := if cand1.length < 64 then
      sprinkleOuter A B beatsB beatsA cand1
    else cand1
  dedupLoop cand2 [] []

end CandidatesTs

/-- **C5** counterexample.  `generateCandidates` of
`src/lib/analysis/candidates.ts` never reads `crossfadeMs` and performs no
crossfade-window check: with track A's only beat at `tA = 10 s`, search
range A = `[0, 10]` and a requested 5-second crossfade, it returns the
candidate `(tA, tB) = (10, 5)` whose crossfade window `[10, 15]` extends 5 s
beyond `rangeA.endSec = 10` — the candidate is not discarded. -/
theorem candidates_window_not_checked :
    CandidatesTs.generateCandidates ⟨120, [10], [], [], 1⟩
        ⟨120, [5], [], [], 1⟩ ⟨0, 10⟩ ⟨0, 10⟩ 5000 44100 =
      [⟨10, 5, true, true, false, false, false, false, false, false⟩] ∧
    ¬ ((10 : ℚ) + 5000 / 1000 ≤ (10 : ℚ)) := by
  have hbA : Segments.estimateBoundaries ⟨120, [10], [], [], 1⟩ = [] := rfl
  have hbB : Segments.estimateBoundaries ⟨120, [5], [], [], 1⟩ = [] := rfl
  have hvA : Segments.isValley ⟨120, [10], [], [], 1⟩ 10 (3 / 5) = false := by
    rw [Segments.isValley]
    norm_num [Score.jsRound, Util.intRange, Util.getQ, Function.comp_def]
  have hvB : Segments.isValley ⟨120, [5], [], [], 1⟩ 5 (3 / 5) = false := by
    rw [Segments.isValley]
    norm_num [Score.jsRound, Util.intRange, Util.getQ, Function.comp_def]
  constructor
  · rw [CandidatesTs.generateCandidates]
    norm_num [hbA, hbB, List.filter, List.enum, List.enumFrom,
      CandidatesTs.mkDownbeatPair, CandidatesTs.mkBeatPair,
      CandidatesTs.near, CandidatesTs.sprinkleOuter,
      CandidatesTs.sprinkleInner, CandidatesTs.dedupLoop,
      CandidatesTs.dedupKey, Score.jsRound, hvA, hvB]
  · norm_num

/-! ## The `unnamed/part_010` candidate generator (claim C5) -/

namespace CandidatesP10

/-- `Candidate` of `unnamed/part_010` (lines 8–15). -/
structure Candidate where
  tA : ℚ
  tB : ℚ
  isDownbeatA : Bool
  isDownbeatB : Bool
  isStrongOnsetA : Bool
  isStrongOnsetB : Bool
  deriving DecidableEq

/-- The fields of the first `EssentiaAnalysisResult` contract
(`src/lib/analysis/essentiaClient.ts`, lines 9–21) read by this generator:
beat/onset positions (in samples) and the sample rate. -/
structure AnalysisResult where
  beats : List ℚ
  onsets : List ℚ
  sampleRate : ℚ
  deriving DecidableEq

/-- `findDownbeatsInRange` (`unnamed/part_010`, lines 126–134): keep beats
inside `[startSec·sr, endSec·sr]` (sample units) and convert to seconds. -/
def findDownbeatsInRange (beats : List ℚ) (range : ℚ × ℚ)
    (sampleRate : ℚ) : List ℚ :=
  (beats.filter (fun beat =>
    range.1 * sampleRate ≤ beat ∧ beat ≤ range.2 * sampleRate)).map
    (fun beat => beat / sampleRate)

/-- `findStrongOnsetsInRange` (`unnamed/part_010`, lines 140–148; its body
matches `findDownbeatsInRange`). -/
def findStrongOnsetsInRange (onsets : List ℚ) (range : ℚ × ℚ)
    (sampleRate : ℚ) : List ℚ :=
  (onsets.filter (fun onset =>
    range.1 * sampleRate ≤ onset ∧ onset ≤ range.2 * sampleRate)).map
    (fun onset => onset / sampleRate)

/-- `isValidCandidate` (`unnamed/part_010`, lines 153–175): both splice
points inside their ranges, and at least `xfSec` of room after `tA` in
range A and after the start of range B before `tB`. -/
def isValidCandidate (tA tB : ℚ) (rangeA rangeB : ℚ × ℚ)
    (xfSec : ℚ) : Bool :=
  if tA < rangeA.1 ∨ rangeA.2 < tA ∨ tB < rangeB.1 ∨ rangeB.2 < tB then
    false
  else
    let remainingA := rangeA.2 - tA
    let remainingB := tB - rangeB.1
    xfSec ≤ remainingA ∧ xfSec ≤ remainingB

/-- One guarded push `if (isValidCandidate(...)) candidates.push({...})` of
`generateCandidates`. -/
def pushValid (rangeA rangeB : ℚ × ℚ) (xfSec : ℚ) (tA tB : ℚ)
    (dA dB sA sB : Bool) : List Candidate :=
  if isValidCandidate tA tB rangeA rangeB xfSec then
    [⟨tA, tB, dA, dB, sA, sB⟩]
  else []

/-- The priority value of step 7's sort comparator (`unnamed/part_010`,
lines 111–117): downbeats weigh 2, strong onsets 1. -/
def priorityScore (c : Candidate) : ℚ :=
  (if c.isDownbeatA then 2 else 0) + (if c.isDownbeatB then 2 else 0) +
    (if c.isStrongOnsetA then 1 else 0) + (if c.isStrongOnsetB then 1 else 0)

/-- `generateCandidates` (`unnamed/part_010`, lines 30–120): four nested
candidate loops — downbeat↔downbeat, downbeat↔onset, onset↔downbeat, and
(only when fewer than 10 candidates so far) onset↔onset — each push guarded
by `isValidCandidate`, followed by the priority sort. -/
def generateCandidates (analysisA analysisB : AnalysisResult)
    (rangeA rangeB : ℚ × ℚ) (crossfadeMs : ℚ) : List Candidate :=
  let xfSec := crossfadeMs / 1000
  let downbeatsA :=
    findDownbeatsInRange analysisA.beats rangeA analysisA.sampleRate
  let downbeatsB :=
    findDownbeatsInRange analysisB.beats rangeB analysisB.sampleRate
  let strongOnsetsA :=
    findStrongOnsetsInRange analysisA.onsets rangeA analysisA.sampleRate
  let strongOnsetsB :=
    findStrongOnsetsInRange analysisB.onsets rangeB analysisB.sampleRate
  let phase3 := downbeatsA.bind (fun tA => downbeatsB.bind (fun tB =>
    pushValid rangeA rangeB xfSec tA tB true true
      (decide (tA ∈ strongOnsetsA)) (decide (tB ∈ strongOnsetsB))))
  let phase4 := downbeatsA.bind (fun tA => strongOnsetsB.bind (fun tB =>
    pushValid rangeA rangeB xfSec tA tB true false
      (decide (tA ∈ strongOnsetsA)) true))
  let phase5 := strongOnsetsA.bind (fun tA => downbeatsB.bind (fun tB =>
    pushValid rangeA rangeB xfSec tA tB false true
      true (decide (tB ∈ strongOnsetsB))))
  let cands := phase3 ++ phase4 ++ phase5
  let cands := if cands.length < 10 then
      cands ++ strongOnsetsA.bind (fun tA => strongOnsetsB.bind (fun tB =>
        pushValid rangeA rangeB xfSec tA tB false false true true))
    else cands
  List.insertionSort (fun a b => priorityScore b ≤ priorityScore a) cands

end CandidatesP10

/-- Unfolding of a true `isValidCandidate` test into its six guarantees. -/
theorem isValidCandidate_spec {tA tB : ℚ} {rangeA rangeB : ℚ × ℚ} {xf : ℚ}
    (h : CandidatesP10.isValidCandidate tA tB rangeA rangeB xf = true) :
    rangeA.1 ≤ tA ∧ tA ≤ rangeA.2 ∧ rangeB.1 ≤ tB ∧ tB ≤ rangeB.2 ∧
    xf ≤ rangeA.2 - tA ∧ xf ≤ tB - rangeB.1 := by
  rw [CandidatesP10.isValidCandidate] at h
  split_ifs at h with hrange
  push_neg at hrange
  simp only [decide_eq_true_eq] at h
  exact ⟨hrange.1, hrange.2.1, hrange.2.2.1, hrange.2.2.2, h.1, h.2⟩

/-- Membership in one of the guarded pushes yields a passed validity test
and the pushed record. -/
theorem mem_pushValid {rangeA rangeB : ℚ × ℚ} {xf tA tB : ℚ}
    {dA dB sA sB : Bool} {c : CandidatesP10.Candidate}
    (h : c ∈ CandidatesP10.pushValid rangeA rangeB xf tA tB dA dB sA sB) :
    CandidatesP10.isValidCandidate tA tB rangeA rangeB xf = true ∧
      c = ⟨tA, tB, dA, dB, sA, sB⟩ := by
  rw [CandidatesP10.pushValid] at h
  split_ifs at h with hv
  · exact ⟨hv, List.mem_singleton.mp h⟩
  · exact absurd h (List.not_mem_nil c)

/-- Membership in one candidate loop (a double bind of guarded pushes)
yields a passed validity test at the candidate's own splice points. -/
theorem valid_of_mem_phase {la lb : List ℚ} {rangeA rangeB : ℚ × ℚ}
    {xf : ℚ} {dA dB sA sB : ℚ → ℚ → Bool} {c : CandidatesP10.Candidate}
    (h : c ∈ la.bind (fun tA => lb.bind (fun tB =>
      CandidatesP10.pushValid rangeA rangeB xf tA tB (dA tA tB) (dB tA tB)
        (sA tA tB) (sB tA tB)))) :
    CandidatesP10.isValidCandidate c.tA c.tB rangeA rangeB xf = true := by
  obtain ⟨tA, -, h2⟩ := List.mem_bind.mp h
  obtain ⟨tB, -, h3⟩ := List.mem_bind.mp h2
  obtain ⟨hv, rfl⟩ := mem_pushValid h3
  exact hv

/-- **C5** (amended).  In the `unnamed/part_010` generator every returned
candidate passed `isValidCandidate`: `tA ∈ rangeA`, `tB ∈ rangeB`, and the
requested crossfade fits — `xfSec ≤ rangeA.end − tA` and
`xfSec ≤ tB − rangeB.start` — so a candidate whose crossfade window would
exceed its `TimeRange` is discarded there.  (The `candidates.ts` generator,
by contrast, never reads `crossfadeMs` and performs no window check; see the
counterexample.) -/
theorem p10_candidates_valid (analysisA analysisB :
    CandidatesP10.AnalysisResult) (rangeA rangeB : ℚ × ℚ)
    (crossfadeMs : ℚ) (c : CandidatesP10.Candidate)
    (hc : c ∈ CandidatesP10.generateCandidates analysisA analysisB
      rangeA rangeB crossfadeMs) :
    rangeA.1 ≤ c.tA ∧ c.tA ≤ rangeA.2 ∧ rangeB.1 ≤ c.tB ∧ c.tB ≤ rangeB.2 ∧
    crossfadeMs / 1000 ≤ rangeA.2 - c.tA ∧
    crossfadeMs / 1000 ≤ c.tB - rangeB.1 := by
  simp only [CandidatesP10.generateCandidates] at hc
  have hm := (List.perm_insertionSort _ _).subset hc
  apply @isValidCandidate_spec _ _ _ _ (crossfadeMs / 1000)
  split_ifs at hm with hlen
  · rcases List.mem_append.mp hm with hm' | hm'
    · rcases List.mem_append.mp hm' with hm'' | hm''
      · rcases List.mem_append.mp hm'' with h3 | h4
        · exact valid_of_mem_phase h3
        · exact valid_of_mem_phase h4
      · exact valid_of_mem_phase hm''
    · exact valid_of_mem_phase hm'
  · rcases List.mem_append.mp hm with hm'' | hm''
    · rcases List.mem_append.mp hm'' with h3 | h4
      · exact valid_of_mem_phase h3
      · exact valid_of_mem_phase h4
    · exact valid_of_mem_phase hm''

/-- Witness for `p10_candidates_valid`: with one beat of A at sample 2 and
one beat of B at sample 5 (sample rate 1), ranges `[0, 10]` and a 1-second
crossfade, the generator returns exactly the candidate `(2, 5)`. -/
theorem p10_candidates_valid_witness :
    ((⟨2, 5, true, true, false, false⟩ : CandidatesP10.Candidate) ∈
      CandidatesP10.generateCandidates ⟨[2], [], 1⟩ ⟨[5], [], 1⟩ (0, 10)
        (0, 10) 1000) ∧
    ((0 : ℚ) ≤ 2 ∧ (2 : ℚ) ≤ 10 ∧ (0 : ℚ) ≤ 5 ∧ (5 : ℚ) ≤ 10 ∧
     (1000 : ℚ) / 1000 ≤ 10 - 2 ∧ (1000 : ℚ) / 1000 ≤ 5 - 0) :=
  have heval : CandidatesP10.generateCandidates ⟨[2], [], 1⟩ ⟨[5], [], 1⟩
      (0, 10) (0, 10) 1000 = [⟨2, 5, true, true, false, false⟩] := by
    norm_num [CandidatesP10.generateCandidates,
      CandidatesP10.findDownbeatsInRange,
      CandidatesP10.findStrongOnsetsInRange, CandidatesP10.pushValid,
      CandidatesP10.isValidCandidate, List.filter,
      List.insertionSort, List.orderedInsert]
  have hmem : (⟨2, 5, true, true, false, false⟩ : CandidatesP10.Candidate) ∈
      CandidatesP10.generateCandidates ⟨[2], [], 1⟩ ⟨[5], [], 1⟩ (0, 10)
        (0, 10) 1000 := by
    rw [heval]
    exact List.mem_singleton.mpr rfl
  ⟨hmem, p10_candidates_valid _ _ _ _ _ _ hmem⟩

/-! ## The fallback analyzer (`src/lib/analysis/essentiaClient.ts`,
second document, lines 396–462) — claims C7 and C8.

`computeFrameRMS` takes square roots, so it lives over ℝ; every later stage
only uses field operations and comparisons and is defined over any linear
ordered field, so the same definitions serve the ℝ pipeline (C7) and exact
rational evaluation (C8). -/

namespace EssentiaClient

/-- `computeFrameRMS` (`src/lib/analysis/essentiaClient.ts`, lines 438–447):
frame size 2048, hop 512, `numFrames = max(1, ⌊(len − 2048) / 512⌋)` (for a
non-positive quotient both floor and truncation are clamped to 1 by the
`max`), `rms[i] = sqrt(Σ_{j<2048} signal[512·i + j]² / 2048)` with
out-of-range samples read as 0 (`signal[start + j] || 0`), and
`hopSec = 512 / sr`. -/
noncomputable def computeFrameRMS (signal : List ℝ) (sr : ℝ) :
    List ℝ × ℝ :=
  let numFrames : ℕ := (max 1 (((signal.length : ℤ) - 2048) / 512)).toNat
  let rms := (List.range numFrames).map (fun i =>
    Real.sqrt (((List.range 2048).map (fun j =>
      signal.getD (512 * i + j) 0 ^ 2)).sum / 2048))
  (rms, 512 / sr)

variable {α : Type} [LinearOrderedField α] [FloorRing α]

/-- The raw (pre-normalization) onset envelope of `analyzeFallback`
(lines 404–409): `env[0] = 0`, `env[i] = max(0, rms[i] - rms[i-1])`.
(`computeFrameRMS` always returns at least one frame, so the source's
`onsetEnv[0] = 0` write never grows an empty array.) -/
def rawOnsetEnv (rms : List α) : List α :=
  (List.range rms.length).map (fun i =>
    if i = 0 then 0 else max 0 (rms.getD i 0 - rms.getD (i - 1) 0))

/-- The running maximum `let maxEnv = 1e-9; for (v of env) if (v > maxEnv)
maxEnv = v` (lines 410–411). -/
def maxEnv (env : List α) : α := env.foldl max (1 / 10 ^ 9)

/-- The normalized onset envelope (lines 404–412); the guard
`if (maxEnv > 0)` always holds since the maximum is seeded with `1e-9`. -/
def onsetEnv (rms : List α) : List α :=
  let env := rawOnsetEnv rms
  let m := maxEnv env
  if 0 < m then env.map (· / m) else env

/-- The autocorrelation accumulation of `estimateBPMFromEnvelope`
(lines 457–458): `for (i = lag; i < z.length; i++) acc += z[i]*z[i-lag]`. -/
def acf (z : List α) (lag : ℤ) : α :=
  ((Util.intRange lag ((z.length : ℤ) - 1)).map
    (fun i => Util.getQ z i * Util.getQ z (i - lag))).sum

/-- One iteration of the best-lag loop (lines 455–460): update
`(bestLag, bestVal)` on `acc > bestVal`.  The initial `bestVal = -Infinity`
is the `none` state: any accumulated value beats it. -/
def bpmStep (z : List α) (st : ℤ × Option α) (lag : ℤ) : ℤ × Option α :=
  let acc := acf z lag
  match st.2 with
  | none => (lag, some acc)
  | some v => if v < acc then (lag, some acc) else st

/-- The best-lag search (lines 455–460), starting from
`bestLag = minLag`, `bestVal = -Infinity`. -/
def bpmSearch (z : List α) (lags : List ℤ) (minLag : ℤ) : ℤ :=
  (lags.foldl (bpmStep z) ((minLag, none) : ℤ × Option α)).1

/-- `estimateBPMFromEnvelope` (lines 449–462).  The final return is
`Math.max(60, Math.min(180, 60 / (bestLag * hopSec)))`; when
`bestLag * hopSec = 0` the JavaScript division yields `+Infinity` and the
clamp returns 180, modelled explicitly. -/
def estimateBPMFromEnvelope (env : List α) (hopSec minBPM maxBPM : α) :
    α :=
  let minLag : ℤ := ⌊60 / maxBPM / hopSec⌋
  let maxLag : ℤ := ⌊60 / minBPM / hopSec⌋
  let mean := env.sum / max 1 (env.length : α)
  let z := env.map (· - mean)
  let bestLag := bpmSearch z (Util.intRange minLag maxLag) minLag
  if (bestLag : α) * hopSec = 0 then 180
  else max 60 (min 180 (60 / ((bestLag : α) * hopSec)))

/-- One fuelled unrolling of the beat-grid loop
`let t = 0; while (t < dur) { beats.push(t); t += beatSec }`
(lines 419–422). -/
def beatGridFuel (beatSec dur : α) : ℕ → α → List α
  | 0, _ => []
  | fuel + 1, t =>
      if t < dur then t :: beatGridFuel beatSec dur fuel (t + beatSec)
      else []

/-- The beat-grid loop, with fuel `⌈dur / beatSec⌉ + 1`.  The analyzer calls
it with `beatSec = 60 / bpm` and `bpm` clamped to `[60, 180]`, so
`beatSec > 0` and the fuel strictly bounds the number of iterations: the
fuelled recursion performs exactly the source loop. -/
def beatGrid (beatSec dur : α) : List α :=
  beatGridFuel beatSec dur (⌈dur / beatSec⌉.toNat + 1) 0

/-- Onset peak picking (lines 425–430): interior local maxima of the
normalized envelope above the fixed threshold 0.15, at times `i · hopSec`. -/
def onsetPeaks (env : List α) (hopSec : α) : List α :=
  ((List.range env.length).filter (fun (i : ℕ) =>
    1 ≤ i ∧ i + 1 < env.length ∧
    (15 / 100 : α) < env.getD i 0 ∧
    env.getD (i - 1) 0 < env.getD i 0 ∧
    env.getD (i + 1) 0 < env.getD i 0)).map (fun i => (i : α) * hopSec)

/-- The fields of the fallback `EssentiaAnalysisResult` that depend on the
signal (lines 432–433; `key` is the constant C-major stub and `sampleRate`,
`rms`, `frameHopSec` are pass-throughs). -/
structure FallbackResult (α : Type) where
  bpm : α
  beats : List α
  onsets : List α

/-- The stages of `analyzeFallback` (lines 396–434) after `computeFrameRMS`:
onset envelope, normalization, autocorrelation BPM in `[60, 180]`, the beat
grid from `t = 0` with period `60 / bpm`, and the onset peaks. -/
def analyzeFallbackFromRMS (rms : List α) (hopSec dur : α) :
    FallbackResult α :=
  let env := onsetEnv rms
  let bpm := estimateBPMFromEnvelope env hopSec 60 180
  ⟨bpm, beatGrid (60 / bpm) dur, onsetPeaks env hopSec⟩

/-- `analyzeFallback` (lines 396–434): frame RMS of the first channel, then
the rational stages; `dur = audioBuffer.duration`. -/
noncomputable def analyzeFallback (signal : List ℝ) (sr dur : ℝ) :
    FallbackResult ℝ :=
  let r := computeFrameRMS signal sr
  analyzeFallbackFromRMS r.1 r.2 dur

end EssentiaClient

/-- **C8** counterexample.  On the frame-RMS profile
`[0, 1/2, 1/2, 1/2, 1/2, 0]` (hop 1 s, duration 10 s) the fallback
analyzer's normalized onset envelope is `[0, 1, 0, 0, 0, 0]`: its only — and
hence strongest — onset inside the first 5 seconds is at `t = 1`, yet the
produced beat grid still starts at `t = 0`, not at the strongest onset.
(Both cited beat-grid builders start at 0 unconditionally; `getBeatGrid`'s
own comment says "crude: assume beat starts at 0".) -/
theorem beat_grid_not_onset_seeded :
    (EssentiaClient.analyzeFallbackFromRMS
      ([0, 1/2, 1/2, 1/2, 1/2, 0] : List ℚ) 1 10).onsets = [1] ∧
    (EssentiaClient.analyzeFallbackFromRMS
      ([0, 1/2, 1/2, 1/2, 1/2, 0] : List ℚ) 1 10).beats.head? = some 0 ∧
    (0 : ℚ) ≠ 1 := by
  have henv : EssentiaClient.onsetEnv ([0, 1/2, 1/2, 1/2, 1/2, 0] : List ℚ)
      = [0, 1, 0, 0, 0, 0] := by
    rw [EssentiaClient.onsetEnv]
    have hraw : EssentiaClient.rawOnsetEnv
        ([0, 1/2, 1/2, 1/2, 1/2, 0] : List ℚ) = [0, 1/2, 0, 0, 0, 0] := by
      rw [EssentiaClient.rawOnsetEnv]
      norm_num [List.range_succ, max_def]
    rw [hraw]
    have hmax : EssentiaClient.maxEnv ([0, 1/2, 0, 0, 0, 0] : List ℚ)
        = 1/2 := by
      rw [EssentiaClient.maxEnv]
      norm_num [List.foldl, max_def]
    rw [hmax]
    norm_num
  refine ⟨?_, ?_, by norm_num⟩
  · show EssentiaClient.onsetPeaks
      (EssentiaClient.onsetEnv ([0, 1/2, 1/2, 1/2, 1/2, 0] : List ℚ)) 1 = [1]
    rw [henv, EssentiaClient.onsetPeaks]
    norm_num [List.range_succ, List.filter]
  · have hb : (EssentiaClient.analyzeFallbackFromRMS
        ([0, 1/2, 1/2, 1/2, 1/2, 0] : List ℚ) 1 10).beats =
        EssentiaClient.beatGrid
          (60 / (EssentiaClient.analyzeFallbackFromRMS
            ([0, 1/2, 1/2, 1/2, 1/2, 0] : List ℚ) 1 10).bpm) 10 := rfl
    rw [hb, EssentiaClient.beatGrid, EssentiaClient.beatGridFuel]
    norm_num

/-- The BPM estimate of the fallback analyzer is always clamped into
`[60, 180]` (either via the explicit clamp or via the division-by-zero
branch). -/
theorem estimateBPM_mem_range {α : Type} [LinearOrderedField α]
    [FloorRing α] (env : List α) (hopSec : α) :
    60 ≤ EssentiaClient.estimateBPMFromEnvelope env hopSec 60 180 ∧
    EssentiaClient.estimateBPMFromEnvelope env hopSec 60 180 ≤ 180 := by
  simp only [EssentiaClient.estimateBPMFromEnvelope]
  split_ifs
  · norm_num
  · exact ⟨le_max_left _ _, max_le (by norm_num) (min_le_left _ _)⟩

/-- Closed form of the fuelled beat-grid loop: starting at `t`, with a
positive step, it emits `t, t + b, t + 2b, …` while below `dur`, capped by
the fuel. -/
theorem beatGridFuel_eq {α : Type} [LinearOrderedField α] [FloorRing α]
    (b dur : α) (hb : 0 < b) :
    ∀ (fuel : ℕ) (t : α),
      EssentiaClient.beatGridFuel b dur fuel t =
        (List.range (min fuel (⌈(dur - t) / b⌉.toNat))).map
          (fun (i : ℕ) => t + (i : α) * b) := by
  intro fuel
  induction fuel with
  | zero => intro t; simp [EssentiaClient.beatGridFuel]
  | succ fuel ih =>
    intro t
    rw [EssentiaClient.beatGridFuel]
    by_cases ht : t < dur
    · rw [if_pos ht, ih (t + b)]
      have hstep : (dur - (t + b)) / b = (dur - t) / b - 1 := by
        field_simp
        ring
      have hpos : (0 : ℤ) < ⌈(dur - t) / b⌉ :=
        Int.ceil_pos.mpr (div_pos (by linarith) hb)
      have hsub : ⌈(dur - (t + b)) / b⌉ = ⌈(dur - t) / b⌉ - 1 := by
        rw [hstep, Int.ceil_sub_one]
      have hN : min (fuel + 1) (⌈(dur - t) / b⌉.toNat) =
          min fuel (⌈(dur - (t + b)) / b⌉.toNat) + 1 := by
        rw [hsub]
        omega
      rw [hN, List.range_succ_eq_map]
      simp only [List.map_cons, List.map_map, Nat.cast_zero, zero_mul,
        add_zero, Function.comp_def]
      congr 1
      apply List.map_congr_left
      intro i _
      push_cast
      ring
    · rw [if_neg ht]
      have hle : (dur - t) / b ≤ 0 := by
        rw [div_nonpos_iff]
        right
        exact ⟨by linarith, hb.le⟩
      have : ⌈(dur - t) / b⌉ ≤ 0 := Int.ceil_le.mpr (by exact_mod_cast hle)
      have h0 : ⌈(dur - t) / b⌉.toNat = 0 := by omega
      simp [h0]

/-- **C8** (amended).  For every frame-RMS profile, hop and positive
duration, the fallback analyzer's BPM lies in `[60, 180]` and its beat grid
is exactly the uniform series `0, p, 2p, …` of period `p = 60 / BPM`
starting at `t = 0` — not at the strongest onset — with
`⌈dur / p⌉` entries, i.e. extended to cover the full track duration. -/
theorem fallback_beat_grid_uniform_from_zero {α : Type}
    [LinearOrderedField α] [FloorRing α] (rms : List α) (hopSec dur : α)
    (hdur : 0 < dur) :
    60 ≤ (EssentiaClient.analyzeFallbackFromRMS rms hopSec dur).bpm ∧
    (EssentiaClient.analyzeFallbackFromRMS rms hopSec dur).bpm ≤ 180 ∧
    (EssentiaClient.analyzeFallbackFromRMS rms hopSec dur).beats =
      (List.range ⌈dur /
        (60 / (EssentiaClient.analyzeFallbackFromRMS rms hopSec dur).bpm)⌉.toNat).map
        (fun (i : ℕ) => (i : α) *
          (60 / (EssentiaClient.analyzeFallbackFromRMS rms hopSec dur).bpm)) ∧
    (EssentiaClient.analyzeFallbackFromRMS rms hopSec dur).beats.head? =
      some 0 := by
  obtain ⟨h60, h180⟩ :=
    estimateBPM_mem_range (EssentiaClient.onsetEnv rms) hopSec
  have hbpm : (EssentiaClient.analyzeFallbackFromRMS rms hopSec dur).bpm =
      EssentiaClient.estimateBPMFromEnvelope (EssentiaClient.onsetEnv rms)
        hopSec 60 180 := rfl
  set B := EssentiaClient.estimateBPMFromEnvelope
    (EssentiaClient.onsetEnv rms) hopSec 60 180 with hB
  have hBpos : (0 : α) < B := lt_of_lt_of_le (by norm_num) h60
  have hb : (0 : α) < 60 / B := div_pos (by norm_num) hBpos
  have hbeats : (EssentiaClient.analyzeFallbackFromRMS rms hopSec dur).beats
      = EssentiaClient.beatGrid (60 / B) dur := rfl
  have hgrid : EssentiaClient.beatGrid (60 / B) dur =
      (List.range ⌈dur / (60 / B)⌉.toNat).map
        (fun (i : ℕ) => (i : α) * (60 / B)) := by
    rw [EssentiaClient.beatGrid, beatGridFuel_eq (60 / B) dur hb]
    have hmin : min (⌈dur / (60 / B)⌉.toNat + 1)
        (⌈(dur - 0) / (60 / B)⌉.toNat) = ⌈dur / (60 / B)⌉.toNat := by
      rw [sub_zero]
      omega
    rw [hmin]
    simp
  have hN : 1 ≤ ⌈dur / (60 / B)⌉.toNat := by
    have : (0 : ℤ) < ⌈dur / (60 / B)⌉ :=
      Int.ceil_pos.mpr (div_pos hdur hb)
    omega
  refine ⟨hbpm ▸ h60, hbpm ▸ h180, by rw [hbpm, hbeats]; exact hgrid, ?_⟩
  rw [hbeats, hgrid]
  obtain ⟨m, hm⟩ : ∃ m, ⌈dur / (60 / B)⌉.toNat = m + 1 :=
    ⟨⌈dur / (60 / B)⌉.toNat - 1, by omega⟩
  rw [hm, List.range_succ_eq_map]
  simp

/-- Witness for `fallback_beat_grid_uniform_from_zero` at the empty RMS
profile, hop 1, duration 10 (over ℚ). -/
theorem fallback_beat_grid_uniform_from_zero_witness :
    (0 : ℚ) < 10 ∧
    (60 ≤ (EssentiaClient.analyzeFallbackFromRMS ([] : List ℚ) 1 10).bpm ∧
     (EssentiaClient.analyzeFallbackFromRMS ([] : List ℚ) 1 10).bpm ≤ 180 ∧
     (EssentiaClient.analyzeFallbackFromRMS ([] : List ℚ) 1 10).beats =
       (List.range ⌈(10 : ℚ) /
         (60 / (EssentiaClient.analyzeFallbackFromRMS ([] : List ℚ) 1 10).bpm)⌉.toNat).map
         (fun (i : ℕ) => (i : ℚ) *
           (60 / (EssentiaClient.analyzeFallbackFromRMS ([] : List ℚ) 1 10).bpm)) ∧
     (EssentiaClient.analyzeFallbackFromRMS ([] : List ℚ) 1 10).beats.head?
       = some 0) :=
  ⟨by norm_num, fallback_beat_grid_uniform_from_zero [] 1 10 (by norm_num)⟩

/-! ### Gain invariance of the fallback BPM estimate (claim C7) -/

section GainInvariance

variable {α : Type} [LinearOrderedField α]

/-- `getD` with default 0 commutes with scaling every element. -/
theorem getD_map_mul (c : α) (l : List α) (i : ℕ) :
    (l.map (fun x => c * x)).getD i 0 = c * l.getD i 0 := by
  induction l generalizing i with
  | nil => simp
  | cons x xs ih =>
    cases i with
    | zero => simp
    | succ n =>
      simp only [List.map_cons, List.getD_cons_succ]
      exact ih n

/-- `Util.getQ` commutes with scaling every element. -/
theorem getQ_map_mul (c : α) (l : List α) (i : ℤ) :
    Util.getQ (l.map (fun x => c * x)) i = c * Util.getQ l i := by
  rw [Util.getQ, Util.getQ]
  split_ifs
  · exact getD_map_mul c l _
  · exact (mul_zero c).symm

/-- Scaling all samples by `c ≥ 0` scales every frame RMS by `c` and leaves
the hop length unchanged. -/
theorem computeFrameRMS_smul (signal : List ℝ) (sr c : ℝ) (hc : 0 ≤ c) :
    EssentiaClient.computeFrameRMS (signal.map (fun x => c * x)) sr =
      ((EssentiaClient.computeFrameRMS signal sr).1.map (fun x => c * x),
       (EssentiaClient.computeFrameRMS signal sr).2) := by
  rw [EssentiaClient.computeFrameRMS, EssentiaClient.computeFrameRMS]
  simp only [List.length_map, List.map_map]
  refine Prod.ext ?_ rfl
  simp only
  apply List.map_congr_left
  intro i _
  simp only [Function.comp_apply]
  have hterm : ∀ j ∈ List.range 2048,
      (signal.map (fun x => c * x)).getD (512 * i + j) 0 ^ 2 =
        c ^ 2 * (signal.getD (512 * i + j) 0 ^ 2) := by
    intro j _
    rw [getD_map_mul]
    ring
  rw [List.map_congr_left hterm, List.sum_map_mul_left]
  rw [mul_div_assoc, Real.sqrt_mul (sq_nonneg c), Real.sqrt_sq hc]

/-- Scaling the frame RMS by `c ≥ 0` scales the raw onset envelope by `c`. -/
theorem rawOnsetEnv_map_mul (c : α) (hc : 0 ≤ c) (rms : List α) :
    EssentiaClient.rawOnsetEnv (rms.map (fun x => c * x)) =
      (EssentiaClient.rawOnsetEnv rms).map (fun x => c * x) := by
  rw [EssentiaClient.rawOnsetEnv, EssentiaClient.rawOnsetEnv,
    List.length_map, List.map_map]
  apply List.map_congr_left
  intro i _
  simp only [Function.comp_apply]
  split_ifs with h
  · exact (mul_zero c).symm
  · rw [getD_map_mul, getD_map_mul, ← mul_sub, mul_max_of_nonneg _ _ hc,
      mul_zero]

/-- The fold seed `1e-9` never decreases along a `max` fold. -/
theorem init_le_foldl_max : ∀ (l : List α) (a : α), a ≤ l.foldl max a
  | [], _ => le_refl _
  | x :: xs, a =>
      le_trans (le_max_left a x) (init_le_foldl_max xs (max a x))

/-- The running maximum of the onset envelope is strictly positive (it is
seeded with `1e-9`). -/
theorem maxEnv_pos (env : List α) : 0 < EssentiaClient.maxEnv env := by
  rw [EssentiaClient.maxEnv]
  exact lt_of_lt_of_le (by positivity) (init_le_foldl_max env _)

/-- The normalized onset envelope is the raw envelope scaled by the
(positive) reciprocal of its running maximum. -/
theorem onsetEnv_eq (rms : List α) :
    EssentiaClient.onsetEnv rms =
      (EssentiaClient.rawOnsetEnv rms).map
        (fun x => (1 / EssentiaClient.maxEnv
          (EssentiaClient.rawOnsetEnv rms)) * x) := by
  rw [EssentiaClient.onsetEnv]
  simp only [if_pos (maxEnv_pos _)]
  apply List.map_congr_left
  intro x _
  rw [one_div_mul_eq_div]

/-- The autocorrelation accumulation scales quadratically. -/
theorem acf_map_mul (c : α) (z : List α) (lag : ℤ) :
    EssentiaClient.acf (z.map (fun x => c * x)) lag =
      c ^ 2 * EssentiaClient.acf z lag := by
  rw [EssentiaClient.acf, EssentiaClient.acf, List.length_map,
    ← List.sum_map_mul_left]
  congr 1
  apply List.map_congr_left
  intro i _
  rw [getQ_map_mul, getQ_map_mul]
  ring

/-- One best-lag step on the scaled envelope relates to the original step:
the best lag agrees and the best value carries the `c²` factor. -/
theorem bpmStep_map_mul {c : α} (hc : 0 < c) (z : List α)
    (st : ℤ × Option α) (lag : ℤ) :
    EssentiaClient.bpmStep (z.map (fun x => c * x))
        (st.1, st.2.map (fun v => c ^ 2 * v)) lag =
      ((EssentiaClient.bpmStep z st lag).1,
       (EssentiaClient.bpmStep z st lag).2.map (fun v => c ^ 2 * v)) := by
  rcases st with ⟨l, o⟩
  cases o with
  | none => simp [EssentiaClient.bpmStep, acf_map_mul]
  | some v =>
    simp only [EssentiaClient.bpmStep, acf_map_mul, Option.map_some']
    have hiff : c ^ 2 * v < c ^ 2 * EssentiaClient.acf z lag ↔
        v < EssentiaClient.acf z lag :=
      mul_lt_mul_left (by positivity)
    by_cases h : v < EssentiaClient.acf z lag
    · rw [if_pos (hiff.mpr h), if_pos h]
      rfl
    · rw [if_neg (fun hx => h (hiff.mp hx)), if_neg h]
      rfl

/-- The best-lag fold on the scaled envelope tracks the original fold. -/
theorem foldl_bpmStep_map_mul {c : α} (hc : 0 < c) (z : List α) :
    ∀ (lags : List ℤ) (st : ℤ × Option α),
      (lags.foldl (EssentiaClient.bpmStep (z.map (fun x => c * x)))
        (st.1, st.2.map (fun v => c ^ 2 * v))).1 =
      (lags.foldl (EssentiaClient.bpmStep z) st).1
  | [], _ => rfl
  | lag :: rest, st => by
      rw [List.foldl_cons, List.foldl_cons, bpmStep_map_mul hc z st lag]
      exact foldl_bpmStep_map_mul hc z rest (EssentiaClient.bpmStep z st lag)

/-- The best lag is invariant under a positive scaling of the envelope. -/
theorem bpmSearch_map_mul {c : α} (hc : 0 < c) (z : List α)
    (lags : List ℤ) (minLag : ℤ) :
    EssentiaClient.bpmSearch (z.map (fun x => c * x)) lags minLag =
      EssentiaClient.bpmSearch z lags minLag := by
  rw [EssentiaClient.bpmSearch, EssentiaClient.bpmSearch]
  exact foldl_bpmStep_map_mul hc z lags ((minLag, none) : ℤ × Option α)

/-- The BPM estimate is invariant under a positive scaling of the
envelope. -/
theorem estimateBPM_map_mul [FloorRing α] {c : α} (hc : 0 < c)
    (env : List α) (hopSec minBPM maxBPM : α) :
    EssentiaClient.estimateBPMFromEnvelope (env.map (fun x => c * x))
        hopSec minBPM maxBPM =
      EssentiaClient.estimateBPMFromEnvelope env hopSec minBPM maxBPM := by
  simp only [EssentiaClient.estimateBPMFromEnvelope, List.length_map]
  have hsum : (env.map (fun x => c * x)).sum = c * env.sum := by
    have : env.map (fun x => c * x) = env.map (fun x => c * id x) := rfl
    rw [this, List.sum_map_mul_left, List.map_id]
  have harg : (env.map (fun x => c * x)).map
      (fun x => x - (env.map (fun x => c * x)).sum /
        max 1 (env.length : α)) =
      (env.map (fun x => x - env.sum / max 1 (env.length : α))).map
        (fun x => c * x) := by
    rw [hsum, List.map_map, List.map_map]
    apply List.map_congr_left
    intro x _
    simp only [Function.comp_apply]
    rw [mul_div_assoc]
    ring
  rw [harg, bpmSearch_map_mul hc]

end GainInvariance

/-- **C7** (confirmed).  The fallback analyzer's BPM estimate is invariant
under scaling every input sample by any positive constant `c`: the frame
RMS scales by `c`, the rectified difference envelope scales by `c`, the
normalization divides by a positive running maximum so the normalized
envelope is a positive multiple of the raw one on both sides, and the
autocorrelation argmax — hence the chosen lag and the clamped BPM — is
unchanged by positive scaling. -/
theorem fallback_bpm_gain_invariant (signal : List ℝ) (sr dur c : ℝ)
    (hc : 0 < c) :
    (EssentiaClient.analyzeFallback (signal.map (fun x => c * x))
      sr dur).bpm =
      (EssentiaClient.analyzeFallback signal sr dur).bpm := by
  have hrms := computeFrameRMS_smul signal sr c hc.le
  have hbpm : ∀ sig : List ℝ,
      (EssentiaClient.analyzeFallback sig sr dur).bpm =
        EssentiaClient.estimateBPMFromEnvelope
          (EssentiaClient.onsetEnv (EssentiaClient.computeFrameRMS sig sr).1)
          (EssentiaClient.computeFrameRMS sig sr).2 60 180 := fun _ => rfl
  rw [hbpm, hbpm, hrms]
  set rms := (EssentiaClient.computeFrameRMS signal sr).1
  rw [onsetEnv_eq, onsetEnv_eq, rawOnsetEnv_map_mul c hc.le, List.map_map]
  set raw := EssentiaClient.rawOnsetEnv rms
  have hM' : 0 < EssentiaClient.maxEnv (raw.map (fun x => c * x)) :=
    maxEnv_pos _
  have hM : 0 < EssentiaClient.maxEnv raw := maxEnv_pos _
  have hcomp : raw.map ((fun x =>
      (1 / EssentiaClient.maxEnv (raw.map (fun x => c * x))) * x) ∘
        (fun x => c * x)) =
      raw.map (fun x =>
        ((1 / EssentiaClient.maxEnv (raw.map (fun x => c * x))) * c) * x) := by
    apply List.map_congr_left
    intro x _
    simp only [Function.comp_apply]
    ring
  rw [hcomp,
    estimateBPM_map_mul (by positivity) raw _ 60 180,
    estimateBPM_map_mul (by positivity) raw _ 60 180]

/-- Witness for `fallback_bpm_gain_invariant`: the one-sample signal `[1]`
scaled by `c = 2`. -/
theorem fallback_bpm_gain_invariant_witness :
    (0 : ℝ) < 2 ∧
    (EssentiaClient.analyzeFallback (([1] : List ℝ).map (fun x => 2 * x))
      44100 1).bpm =
      (EssentiaClient.analyzeFallback ([1] : List ℝ) 44100 1).bpm :=
  ⟨by norm_num, fallback_bpm_gain_invariant [1] 44100 1 2 (by norm_num)⟩

/-! ## The splice planner (`src/lib/analysis/splicePlanner.ts`) — claim C4.

`planSplice` consults three analysis helpers that work on decoded audio
buffers — `chromaPerBeat`, `detectSections` and `dtwOffsetBeats` — whose
outputs feed only the candidate choice and the DTW entry index.  The
embedding is parametric in those three functions (and in the buffer and
chroma representations), so every theorem below holds for *every* behavior
of the helpers, in particular for the real ones. -/

namespace SplicePlanner

/-- `AnalysisResult` of `analyzeTrack` (`unnamed/part_009`, lines 5–15),
restricted to the fields `planSplice` destructures (`analysisB` only uses
`bpm` and `beats`). -/
structure AnalysisResult where
  bpm : ℚ
  beats : List ℚ
  energyProfile : List ℚ
  spectralFlux : List ℚ
  frameDurationSec : ℚ

/-- `arr.slice(a, b)` on a JavaScript array. -/
def jsSlice {γ : Type} (l : List γ) (a b : ℕ) : List γ :=
  (l.drop a).take (b - a)

/-- Step 1 of `planSplice` (lines 56–65): the DJ guardrail window
`(windowStart, windowEnd)` in track A, with `minIntro = 30`,
`minOutro = 15`. -/
def djWindow (durationA crossfadeSeconds : ℚ) : ℚ × ℚ :=
  let earliest :=
    max 0 (min 30 (max 0 (durationA - crossfadeSeconds - 15)))
  let latest := max earliest (durationA - crossfadeSeconds - 15)
  let windowStart := min earliest (max 0 (durationA * 0.3))
  (windowStart, max windowStart latest)

/-- Step 2 of `planSplice` in the buffer-assisted branch (lines 81–89):
last section boundary in the window, else last beat in the window, else
`windowEnd`. -/
def pickCandidateWithBounds (boundsA beatsAsec : List ℚ) (ws we : ℚ) :
    ℚ :=
  let endAinWin := boundsA.filter (fun t => ws ≤ t ∧ t ≤ we)
  if endAinWin ≠ [] then endAinWin.getLastD we
  else
    let beatsInWin := beatsAsec.filter (fun t => ws ≤ t ∧ t ≤ we)
    if beatsInWin ≠ [] then beatsInWin.getLastD we else we

/-- The no-buffers fallback candidate (lines 124–128): last beat in the
window, else `windowEnd`. -/
def pickCandidateFallback (beatsAsec : List ℚ) (ws we : ℚ) : ℚ :=
  let beatsInWin := beatsAsec.filter (fun t => ws ≤ t ∧ t ≤ we)
  if beatsInWin ≠ [] then beatsInWin.getLastD we else we

/-- The nearest-beat scan of step 5 (lines 112–117): first index of
`beatsBsec` minimizing the distance to `b0`; the initial
`bestD = Infinity` is the `none` state. -/
def nearestIdx (beatsBsec : List ℚ) (b0 : ℚ) : ℕ :=
  (beatsBsec.enum.foldl (fun st p =>
    match st.2 with
    | none => (p.1, some |p.2 - b0|)
    | some d => if |p.2 - b0| < d then (p.1, some |p.2 - b0|) else st)
    ((0, none) : ℕ × Option ℚ)).1

/-- Step 5 of `planSplice` (lines 91–123): DTW over A's trailing `K = 8`
beats of chroma against B's leading `K` beats; B's entry is the beat at the
clamped DTW offset, preferring an offset from B's first section boundary
when one exists.  `aIdxStart = Math.max(0, aIdxEnd - K)` is the (clamping)
natural subtraction, and the in-bounds reads `beatsBsec[...]` are modelled
with default 0 (`entrySec`'s own `|| 0` coalesces a falsy 0 to 0). -/
def dtwEntryB {γ : Type} (dtwOffsetBeats : List γ → List γ → ℤ)
    (chromA chromB : List γ) (boundsB beatsAsec beatsBsec : List ℚ)
    (candidate : ℚ) : Option ℚ :=
  let K : ℕ := 8
  let aIdxEnd := (beatsAsec.findIdx? (fun t => candidate ≤ t)).getD
    (beatsAsec.length - 1)
  let aIdxStart := aIdxEnd - K
  let aSlice := jsSlice chromA aIdxStart (min aIdxEnd chromA.length)
  let bSlice := jsSlice chromB 0 (min K chromB.length)
  if 0 < aSlice.length ∧ 0 < bSlice.length then
    let offsetBeats := dtwOffsetBeats aSlice bSlice
    let entryBeatIndex : ℤ :=
      max 0 (min ((beatsBsec.length : ℤ) - 1) offsetBeats)
    let entrySec := beatsBsec.getD entryBeatIndex.toNat 0
    if boundsB ≠ [] then
      let b0 := boundsB.headD 0
      let nearest := nearestIdx beatsBsec b0
      let entryBeatIndex2 : ℤ :=
        max 0 (min ((beatsBsec.length : ℤ) - 1) ((nearest : ℤ) + offsetBeats))
      some (beatsBsec.getD entryBeatIndex2.toNat 0)
    else some entrySec
  else none

/-- Steps 2 and 5 combined, honoring `haveBuffers = !!bufA && !!bufB &&
beatsAsec.length > 2 && beatsBsec.length > 1` (lines 67–128): returns the
candidate splice time in A and the optional DTW-based entry for B. -/
def candidateAndEntry {β γ : Type} (chromaPerBeat : β → List ℚ → List γ)
    (detectSections : List ℚ → List γ → List ℚ)
    (dtwOffsetBeats : List γ → List γ → ℤ)
    (beatsAsec beatsBsec : List ℚ) (ws we : ℚ) (bufA bufB : Option β) :
    ℚ × Option ℚ :=
  match bufA, bufB with
  | some bA, some bB =>
    if 2 < beatsAsec.length ∧ 1 < beatsBsec.length then
      let chromA := chromaPerBeat bA beatsAsec
      let chromB := chromaPerBeat bB beatsBsec
      let boundsB := detectSections beatsBsec chromB
      let candidate :=
        pickCandidateWithBounds (detectSections beatsAsec chromA)
          beatsAsec ws we
      (candidate,
       dtwEntryB dtwOffsetBeats chromA chromB boundsB beatsAsec beatsBsec
         candidate)
    else (pickCandidateFallback beatsAsec ws we, none)
  | _, _ => (pickCandidateFallback beatsAsec ws we, none)

/-- Step 3 of `planSplice` (lines 130–143): refine the candidate to the
minimum-energy ~1-second bin within `±2` beats, staying inside the window;
the initial `bestEnergy = Infinity` is the `none` state and
`energyProfile` uses 1-second bins (`t = i`). -/
def troughRefine (epA : List ℚ) (ws we candidate searchRadius : ℚ) : ℚ :=
  (epA.enum.foldl (fun st p =>
    let t : ℚ := p.1
    if t < ws ∨ we < t then st
    else if |t - candidate| ≤ searchRadius then
      match st.2 with
      | none => (t, some p.2)
      | some be => if p.2 < be then (t, some p.2) else st
    else st)
    ((candidate, none) : ℚ × Option ℚ)).1

/-- Steps 3 and 4 of `planSplice` (lines 130–155): energy-trough
refinement, the clamp into the safe window, and the strong-onset nudge one
beat back when the spectral flux at `fadeStart` exceeds twice its mean. -/
def fadeStartRefined (analysisA : AnalysisResult) (ws we candidate
    secPerBeatA : ℚ) : ℚ :=
  let fadeStart0 :=
    if 0 < analysisA.energyProfile.length then
      troughRefine analysisA.energyProfile ws we candidate (2 * secPerBeatA)
    else candidate
  let fadeStart1 := min (max fadeStart0 ws) we
  if analysisA.spectralFlux ≠ [] ∧ 0 < analysisA.frameDurationSec then
    let idx : ℤ := max 0 (min ((analysisA.spectralFlux.length : ℤ) - 1)
      ⌊fadeStart1 / analysisA.frameDurationSec⌋)
    let meanFlux := analysisA.spectralFlux.sum /
      (if analysisA.spectralFlux.length = 0 then 1
       else (analysisA.spectralFlux.length : ℚ))
    if 2 * meanFlux < Util.getQ analysisA.spectralFlux idx then
      max ws (fadeStart1 - secPerBeatA)
    else fadeStart1
  else fadeStart1

/-- `planSplice` (`src/lib/analysis/splicePlanner.ts`, lines 25–183).
In the exact rational model every `Number.isFinite` test holds, leaving the
sign tests of the final safety clamps; the `entryBeatB` assignment chain
(DTW entry if computed, else the first beat of B, else the initial 0) is
`Option.getD`, and the degenerate `fadeDur < 0` branch
(only reachable for a negative `crossfadeSeconds`) returns `fadeDur`
unrepaired, exactly as the source does. -/
def planSplice {β γ : Type} (chromaPerBeat : β → List ℚ → List γ)
    (detectSections : List ℚ → List γ → List ℚ)
    (dtwOffsetBeats : List γ → List γ → ℤ)
    (analysisA analysisB : AnalysisResult)
    (durationA crossfadeSeconds : ℚ) (bufA bufB : Option β) :
    MixV2.SplicePlan :=
  let safeBpmA := if 0 < analysisA.bpm then analysisA.bpm else 120
  let secPerBeatA := 60 / safeBpmA
  let beatsAsec := if analysisA.beats = [] then [0, durationA]
    else analysisA.beats
  let beatsBsec := if analysisB.beats = [] then [0] else analysisB.beats
  let w := djWindow durationA crossfadeSeconds
  let ce := candidateAndEntry chromaPerBeat detectSections dtwOffsetBeats
    beatsAsec beatsBsec w.1 w.2 bufA bufB
  let fadeStart2 := fadeStartRefined analysisA w.1 w.2 ce.1 secPerBeatA
  let fadeDur := min crossfadeSeconds (max 0 (durationA - fadeStart2))
  let entryBeatB0 := ce.2.getD (beatsBsec.headD 0)
  let entryBeatB1 := if entryBeatB0 < 0 then 0 else entryBeatB0
  let fadeStart3 := if fadeStart2 < 0 then 0 else fadeStart2
  if fadeDur < 0 then ⟨max 0 (durationA - 2), fadeDur, 0⟩
  else ⟨fadeStart3, fadeDur, entryBeatB1⟩

end SplicePlanner

/-- A defaulted list read is an element or the default. -/
theorem getD_mem_or_default {α : Type} (l : List α) (n : ℕ) (d : α) :
    l.getD n d ∈ l ∨ l.getD n d = d := by
  rw [List.getD_eq_getElem?_getD]
  rcases lt_or_ge n l.length with h | h
  · rw [List.getElem?_eq_getElem h]
    left
    exact List.getElem_mem h
  · rw [List.getElem?_eq_none h]
    right
    rfl

/-- A defaulted head is an element or the default. -/
theorem headD_mem_or_default {α : Type} (l : List α) (d : α) :
    l.headD d ∈ l ∨ l.headD d = d := by
  cases l with
  | nil => exact Or.inr rfl
  | cons x xs => exact Or.inl (by simp)

/-- The guardrail window is nonnegative, ordered, and inside track A. -/
theorem djWindow_bounds (durationA crossfadeSeconds : ℚ)
    (hdA : 0 ≤ durationA) (hcf : 0 ≤ crossfadeSeconds) :
    0 ≤ (SplicePlanner.djWindow durationA crossfadeSeconds).1 ∧
    (SplicePlanner.djWindow durationA crossfadeSeconds).1 ≤
      (SplicePlanner.djWindow durationA crossfadeSeconds).2 ∧
    (SplicePlanner.djWindow durationA crossfadeSeconds).2 ≤ durationA := by
  have h1 : (SplicePlanner.djWindow durationA crossfadeSeconds).1 =
      min (max 0 (min 30 (max 0 (durationA - crossfadeSeconds - 15))))
        (max 0 (durationA * 0.3)) := rfl
  have h2 : (SplicePlanner.djWindow durationA crossfadeSeconds).2 =
      max (SplicePlanner.djWindow durationA crossfadeSeconds).1
        (max (max 0 (min 30 (max 0 (durationA - crossfadeSeconds - 15))))
          (durationA - crossfadeSeconds - 15)) := rfl
  have hE : max 0 (min 30 (max 0 (durationA - crossfadeSeconds - 15)))
      ≤ durationA := by
    apply max_le hdA
    calc min 30 (max 0 (durationA - crossfadeSeconds - 15))
        ≤ max 0 (durationA - crossfadeSeconds - 15) := min_le_right _ _
      _ ≤ durationA := max_le hdA (by linarith)
  have hws0 : 0 ≤ (SplicePlanner.djWindow durationA crossfadeSeconds).1 := by
    rw [h1]
    exact le_min (le_max_left 0 _) (le_max_left 0 _)
  have hwsA : (SplicePlanner.djWindow durationA crossfadeSeconds).1 ≤
      durationA := by
    rw [h1]
    exact le_trans (min_le_left _ _) hE
  refine ⟨hws0, by rw [h2]; exact le_max_left _ _, ?_⟩
  rw [h2]
  exact max_le hwsA (max_le hE (by linarith))

/-- The refined fade start stays inside the safe window. -/
theorem fadeStartRefined_mem (analysisA : SplicePlanner.AnalysisResult)
    (ws we candidate s : ℚ) (hwswe : ws ≤ we) (hs : 0 < s) :
    ws ≤ SplicePlanner.fadeStartRefined analysisA ws we candidate s ∧
    SplicePlanner.fadeStartRefined analysisA ws we candidate s ≤ we := by
  rw [SplicePlanner.fadeStartRefined]
  simp only
  set f0 := if 0 < analysisA.energyProfile.length then
    SplicePlanner.troughRefine analysisA.energyProfile ws we candidate
      (2 * s)
    else candidate with hf0
  clear_value f0
  have h1l : ws ≤ min (max f0 ws) we := le_min (le_max_right f0 ws) hwswe
  have h1r : min (max f0 ws) we ≤ we := min_le_right _ _
  split_ifs <;>
    first
    | exact ⟨h1l, h1r⟩
    | exact ⟨le_max_left _ _, max_le hwswe (by linarith)⟩

/-- The DTW-based entry for B, when produced, is one of B's beats (or the
defaulted 0 read). -/
theorem dtwEntryB_mem {γ : Type} (dtwOffsetBeats : List γ → List γ → ℤ)
    (chromA chromB : List γ) (boundsB beatsAsec beatsBsec : List ℚ)
    (candidate : ℚ) {e : ℚ}
    (h : SplicePlanner.dtwEntryB dtwOffsetBeats chromA chromB boundsB
      beatsAsec beatsBsec candidate = some e) :
    e ∈ beatsBsec ∨ e = 0 := by
  rw [SplicePlanner.dtwEntryB] at h
  simp only at h
  split_ifs at h
  all_goals
    obtain rfl := Option.some.inj h
    exact getD_mem_or_default _ _ _

/-- The optional entry produced by steps 2/5 is one of B's beats (or the
defaulted 0 read). -/
theorem candidateAndEntry_mem {β γ : Type}
    (chromaPerBeat : β → List ℚ → List γ)
    (detectSections : List ℚ → List γ → List ℚ)
    (dtwOffsetBeats : List γ → List γ → ℤ)
    (beatsAsec beatsBsec : List ℚ) (ws we : ℚ) (bufA bufB : Option β)
    {e : ℚ}
    (h : (SplicePlanner.candidateAndEntry chromaPerBeat detectSections
      dtwOffsetBeats beatsAsec beatsBsec ws we bufA bufB).2 = some e) :
    e ∈ beatsBsec ∨ e = 0 := by
  cases bufA with
  | none =>
    cases bufB <;> simp [SplicePlanner.candidateAndEntry] at h
  | some bA =>
    cases bufB with
    | none => simp [SplicePlanner.candidateAndEntry] at h
    | some bB =>
      simp only [SplicePlanner.candidateAndEntry] at h
      split_ifs at h with hlen
      exact dtwEntryB_mem dtwOffsetBeats _ _ _ _ _ _ h

/-- **C4** (confirmed).  For every pair of analysis results whose track-B
beats lie within `[0, durationB]`, every nonnegative `durationA`, every
crossfade length within the accepted 3–24 s bounds, and *every* behavior of
the chroma/section/DTW helpers, the plan returned by `planSplice` satisfies
`fadeStart ∈ [0, durationA]`, `fadeDur ∈ [0, crossfadeLen]`, and
`entryBeatB ∈ [0, durationB]`. -/
theorem planSplice_bounds {β γ : Type}
    (chromaPerBeat : β → List ℚ → List γ)
    (detectSections : List ℚ → List γ → List ℚ)
    (dtwOffsetBeats : List γ → List γ → ℤ)
    (analysisA analysisB : SplicePlanner.AnalysisResult)
    (durationA durationB crossfadeSeconds : ℚ) (bufA bufB : Option β)
    (hdA : 0 ≤ durationA) (hdB : 0 ≤ durationB)
    (hcf1 : 3 ≤ crossfadeSeconds) (_hcf2 : crossfadeSeconds ≤ 24)
    (hbeats : ∀ t ∈ analysisB.beats, 0 ≤ t ∧ t ≤ durationB) :
    0 ≤ (SplicePlanner.planSplice chromaPerBeat detectSections
      dtwOffsetBeats analysisA analysisB durationA crossfadeSeconds bufA
      bufB).fadeStart ∧
    (SplicePlanner.planSplice chromaPerBeat detectSections dtwOffsetBeats
      analysisA analysisB durationA crossfadeSeconds bufA
      bufB).fadeStart ≤ durationA ∧
    0 ≤ (SplicePlanner.planSplice chromaPerBeat detectSections
      dtwOffsetBeats analysisA analysisB durationA crossfadeSeconds bufA
      bufB).fadeDur ∧
    (SplicePlanner.planSplice chromaPerBeat detectSections dtwOffsetBeats
      analysisA analysisB durationA crossfadeSeconds bufA
      bufB).fadeDur ≤ crossfadeSeconds ∧
    0 ≤ (SplicePlanner.planSplice chromaPerBeat detectSections
      dtwOffsetBeats analysisA analysisB durationA crossfadeSeconds bufA
      bufB).entryBeatB ∧
    (SplicePlanner.planSplice chromaPerBeat detectSections dtwOffsetBeats
      analysisA analysisB durationA crossfadeSeconds bufA
      bufB).entryBeatB ≤ durationB := by
  have hcf0 : (0 : ℚ) ≤ crossfadeSeconds := by linarith
  obtain ⟨hw0, hw12, hw2⟩ :=
    djWindow_bounds durationA crossfadeSeconds hdA hcf0
  set w := SplicePlanner.djWindow durationA crossfadeSeconds with hw
  set beatsA' := (if analysisA.beats = [] then [0, durationA]
    else analysisA.beats) with hbA
  set beatsB' := (if analysisB.beats = [] then [0]
    else analysisB.beats) with hbB
  set ce := SplicePlanner.candidateAndEntry chromaPerBeat detectSections
    dtwOffsetBeats beatsA' beatsB' w.1 w.2 bufA bufB with hce
  have hsafe : (0 : ℚ) < (if 0 < analysisA.bpm then analysisA.bpm
      else 120) := by
    split_ifs with h
    · exact h
    · norm_num
  have hsec : (0 : ℚ) < 60 / (if 0 < analysisA.bpm then analysisA.bpm
      else 120) := div_pos (by norm_num) hsafe
  set fs2 := SplicePlanner.fadeStartRefined analysisA w.1 w.2 ce.1
    (60 / (if 0 < analysisA.bpm then analysisA.bpm else 120)) with hfs2
  obtain ⟨hfsl, hfsr⟩ := fadeStartRefined_mem analysisA w.1 w.2 ce.1 _
    hw12 hsec
  set fd := min crossfadeSeconds (max 0 (durationA - fs2)) with hfd
  set e0 := ce.2.getD (beatsB'.headD 0) with he0
  have hfd0 : (0 : ℚ) ≤ fd := le_min hcf0 (le_max_left 0 _)
  have heq : SplicePlanner.planSplice chromaPerBeat detectSections
      dtwOffsetBeats analysisA analysisB durationA crossfadeSeconds bufA
      bufB =
      if fd < 0 then ⟨max 0 (durationA - 2), fd, 0⟩
      else ⟨if fs2 < 0 then 0 else fs2, fd, if e0 < 0 then 0 else e0⟩ :=
    rfl
  rw [heq, if_neg (not_lt.mpr hfd0)]
  have hmem : e0 ∈ beatsB' ∨ e0 = 0 := by
    rw [he0]
    cases hc2 : ce.2 with
    | none =>
      simp only [Option.getD_none]
      exact headD_mem_or_default beatsB' 0
    | some e =>
      simp only [Option.getD_some]
      exact candidateAndEntry_mem chromaPerBeat detectSections
        dtwOffsetBeats beatsA' beatsB' w.1 w.2 bufA bufB hc2
  have hmemB : ∀ t ∈ beatsB', 0 ≤ t ∧ t ≤ durationB := by
    intro t ht
    rw [hbB] at ht
    split_ifs at ht with hB
    · rcases List.mem_singleton.mp ht with rfl
      exact ⟨le_refl 0, hdB⟩
    · exact hbeats t ht
  refine ⟨?_, ?_, hfd0, min_le_left _ _, ?_, ?_⟩
  · show (0 : ℚ) ≤ if fs2 < 0 then 0 else fs2
    split_ifs with h
    · exact le_refl 0
    · exact not_lt.mp h
  · show (if fs2 < 0 then 0 else fs2) ≤ durationA
    split_ifs with h
    · exact hdA
    · exact le_trans hfsr hw2
  · show (0 : ℚ) ≤ if e0 < 0 then 0 else e0
    split_ifs with h
    · exact le_refl 0
    · exact not_lt.mp h
  · show (if e0 < 0 then 0 else e0) ≤ durationB
    split_ifs with h
    · exact hdB
    · rcases hmem with hm | h0
      · exact (hmemB e0 hm).2
      · rw [h0]
        exact hdB

/-- Witness for `planSplice_bounds`: trivial helpers, 200 s / 150 s tracks,
an 8-second crossfade and no buffers. -/
theorem planSplice_bounds_witness :
    (0 : ℚ) ≤ 200 ∧ (0 : ℚ) ≤ 150 ∧ (3 : ℚ) ≤ 8 ∧ (8 : ℚ) ≤ 24 ∧
    (∀ t ∈ ([30, 60] : List ℚ), 0 ≤ t ∧ t ≤ 150) ∧
    (0 ≤ (SplicePlanner.planSplice (fun (_ : Unit) (_ : List ℚ) =>
        ([] : List Unit)) (fun _ _ => []) (fun _ _ => 0)
        ⟨120, [30, 60], [], [], 1⟩ ⟨120, [30, 60], [], [], 1⟩ 200 8 none
        none).fadeStart ∧
     (SplicePlanner.planSplice (fun (_ : Unit) (_ : List ℚ) =>
        ([] : List Unit)) (fun _ _ => []) (fun _ _ => 0)
        ⟨120, [30, 60], [], [], 1⟩ ⟨120, [30, 60], [], [], 1⟩ 200 8 none
        none).fadeStart ≤ 200 ∧
     0 ≤ (SplicePlanner.planSplice (fun (_ : Unit) (_ : List ℚ) =>
        ([] : List Unit)) (fun _ _ => []) (fun _ _ => 0)
        ⟨120, [30, 60], [], [], 1⟩ ⟨120, [30, 60], [], [], 1⟩ 200 8 none
        none).fadeDur ∧
     (SplicePlanner.planSplice (fun (_ : Unit) (_ : List ℚ) =>
        ([] : List Unit)) (fun _ _ => []) (fun _ _ => 0)
        ⟨120, [30, 60], [], [], 1⟩ ⟨120, [30, 60], [], [], 1⟩ 200 8 none
        none).fadeDur ≤ 8 ∧
     0 ≤ (SplicePlanner.planSplice (fun (_ : Unit) (_ : List ℚ) =>
        ([] : List Unit)) (fun _ _ => []) (fun _ _ => 0)
        ⟨120, [30, 60], [], [], 1⟩ ⟨120, [30, 60], [], [], 1⟩ 200 8 none
        none).entryBeatB ∧
     (SplicePlanner.planSplice (fun (_ : Unit) (_ : List ℚ) =>
        ([] : List Unit)) (fun _ _ => []) (fun _ _ => 0)
        ⟨120, [30, 60], [], [], 1⟩ ⟨120, [30, 60], [], [], 1⟩ 200 8 none
        none).entryBeatB ≤ 150) :=
  ⟨by norm_num, by norm_num, by norm_num, by norm_num,
   by
     intro t ht
     simp at ht
     rcases ht with rfl | rfl <;> norm_num,
   planSplice_bounds _ _ _ _ _ 200 150 8 none none (by norm_num)
     (by norm_num) (by norm_num) (by norm_num)
     (by
       intro t ht
       simp at ht
       rcases ht with rfl | rfl <;> norm_num)⟩

end PersonalDJ
